import Mathlib

/-!
# terraform-provider-phpipam: the address resource

A shallow embedding of `resource_address.go`.

* A Go function returning `(T, error)` becomes a function returning `T × GoError`,
  where `GoError = Option String` (`none` is `nil`, `some msg` an error whose text is `msg`).
  Both components are kept, because Go returns both.
* The phpIPAM REST client (package `go-phpipam`) and the process-wide mutex are external
  to the repository.  They are parameters: every remote call is a function of an abstract
  remote state `σ` returning its response, its error and the next remote state.
* A nil-pointer dereference is a result of its own (`Run.nilDeref`).
* `log.Printf` calls are dropped.
-/

namespace PhpIPAM

/-- Go `error`: `none` is `nil`, `some msg` is an error with message `msg`. -/
abbrev GoError := Option String

/-! ## Response types of the phpIPAM client (the fields the resource reads) -/

/-- One element of `Sections.Data`. -/
structure SectionsData where
  ID : String
  Name : String
deriving DecidableEq, Repr

/-- Response of `GetSections`. -/
structure Sections where
  Code : Int
  Data : List SectionsData
deriving DecidableEq, Repr

/-- One element of `SectionsSubnets.Data`. -/
structure SectionsSubnetsData where
  ID : String
  Description : String
deriving DecidableEq, Repr

/-- Response of `GetSectionsSubnets`. -/
structure SectionsSubnets where
  Code : Int
  Data : List SectionsSubnetsData
deriving DecidableEq, Repr

/-- One element of `AddressSearch.Data`. -/
structure AddressSearchData where
  ID : String
  IP : String
  Description : String
deriving DecidableEq, Repr

/-- Response of `GetAddressSearch` (search by hostname). -/
structure AddressSearch where
  Code : Int
  Data : List AddressSearchData
deriving DecidableEq, Repr

/-- One element of `AddressSearchIP.Data`. -/
structure AddressSearchIPData where
  ID : String
deriving DecidableEq, Repr

/-- Response of `GetAddressSearchIP` (search by literal IP). -/
structure AddressSearchIP where
  Code : Int
  Data : List AddressSearchIPData
deriving DecidableEq, Repr

/-- Payload of `Address.Data`. -/
structure AddressData where
  Hostname : String
  IP : String
  SubnetID : String
deriving DecidableEq, Repr

/-- Response of `GetAddress`. -/
structure Address where
  Code : Int
  Data : AddressData
deriving DecidableEq, Repr

/-- Payload of `Subnet.Data.Gateway`. -/
structure SubnetGateway where
  IPAddress : String
deriving DecidableEq, Repr

/-- Payload of `Subnet.Data.Calculation`. -/
structure SubnetCalculation where
  Broadcast : String
  BitMask : String
deriving DecidableEq, Repr

/-- Payload of `Subnet.Data`. -/
structure SubnetData where
  Description : String
  SectionID : String
  Gateway : SubnetGateway
  Calculation : SubnetCalculation
deriving DecidableEq, Repr

/-- Response of `GetSubnet`. -/
structure Subnet where
  Code : Int
  Data : SubnetData
deriving DecidableEq, Repr

/-- Payload of `Section.Data`. -/
structure SectionData where
  Name : String
deriving DecidableEq, Repr

/-- Response of `GetSection`. -/
structure SectionResp where
  Code : Int
  Data : SectionData
deriving DecidableEq, Repr

/-- Response of `CreateAddressFirstFree`. -/
structure AddressFirstFree where
  Code : Int
  IP : String
deriving DecidableEq, Repr

/-- Response of `DeleteAddress`. -/
structure AddressDelete where
  Code : Int
deriving DecidableEq, Repr

/-- Response of `PatchUpdateAddress`. -/
structure AddressUpdate where
  Code : Int
deriving DecidableEq, Repr

/-- The capability surface of `*phpipam.Client` used by the resource.  Every call reads the
remote state, answers with `(response, error)` and leaves a next remote state. -/
structure PhpIPAMClient (σ : Type) where
  GetSections : σ → (Sections × GoError) × σ
  GetSectionsSubnets : String → σ → (SectionsSubnets × GoError) × σ
  GetAddressSearch : String → σ → (AddressSearch × GoError) × σ
  GetAddressSearchIP : String → σ → (AddressSearchIP × GoError) × σ
  GetAddress : String → σ → (Address × GoError) × σ
  GetSubnet : String → σ → (Subnet × GoError) × σ
  GetSection : String → σ → (SectionResp × GoError) × σ
  CreateAddressFirstFree :
    String → String → String → String → σ → (AddressFirstFree × GoError) × σ
  DeleteAddress : String → σ → (AddressDelete × GoError) × σ
  PatchUpdateAddress : String → String → σ → (AddressUpdate × GoError) × σ

/-- The struct `Client` of `provider.go`. -/
structure Client (σ : Type) where
  PhpIPAMClient : PhpIPAMClient σ

/-- The two operations of `sync.Mutex`, as effects on the state. -/
structure Mutex (σ : Type) where
  Lock : σ → σ
  Unlock : σ → σ

/-- The struct `AddressInformation`. -/
structure AddressInformation where
  Hostname : String
  IP : String
  Section : String
  Subnet : String
  Broadcast : String
  Gateway : String
  BitMask : String
  Index : String
deriving DecidableEq, Repr

/-- The zero value produced by `new(AddressInformation)`. -/
def AddressInformation.zero : AddressInformation :=
  { Hostname := "", IP := "", Section := "", Subnet := "", Broadcast := "", Gateway := "",
    BitMask := "", Index := "" }

/-! ## strconv.Atoi -/

/-- Value of a non-empty string of ASCII decimal digits, read left to right from `acc`. -/
def atoiDigits : List Char → Nat → Option Nat
  | [], acc => some acc
  | ch :: rest, acc =>
    if 48 ≤ ch.toNat ∧ ch.toNat ≤ 57 then
      atoiDigits rest (acc * 10 + (ch.toNat - 48))
    else none

/-- Unsigned part accepted by `strconv.Atoi`: one digit at least. -/
def atoiUnsigned : List Char → Option Nat
  | [] => none
  | ch :: rest => atoiDigits (ch :: rest) 0

/-- The Go standard library function `strconv.Atoi` on a 64-bit platform: an optional sign,
then one decimal digit at least, the value within the range of `int`; `none` is the error. -/
def strconv_Atoi (s : String) : Option Int :=
  match s.data with
  | [] => none
  | '-' :: rest =>
    match atoiUnsigned rest with
    | some n => if n ≤ 2 ^ 63 then some (-(n : Int)) else none
    | none => none
  | '+' :: rest =>
    match atoiUnsigned rest with
    | some n => if n < 2 ^ 63 then some (n : Int) else none
    | none => none
  | ch :: rest =>
    match atoiUnsigned (ch :: rest) with
    | some n => if n < 2 ^ 63 then some (n : Int) else none
    | none => none

/-! ## Naming resolver -/

variable {σ : Type}

/-- Go `func (c *Client) findSectionID(section string) (string, error)`. -/
def findSectionID (c : Client σ) (sect : String) (s : σ) : (String × GoError) × σ :=
  let sectionID : String := ""
  match c.PhpIPAMClient.GetSections s with
  | ((_, some err), s1) => ((sectionID, some err), s1)
  | ((sections, none), s1) =>
    let sectionID := sections.Data.foldl
      (fun acc element => if element.Name = sect then element.ID else acc) sectionID
    if sectionID.length = 0 then
      ((sectionID, some "Section Not Found"), s1)
    else
      ((sectionID, none), s1)

/-- Go `func (c *Client) findSubnetID(sectionID string, subnet string) (string, error)`. -/
def findSubnetID (c : Client σ) (sectionID : String) (subnet : String) (s : σ) :
    (String × GoError) × σ :=
  let subnetID : String := ""
  match c.PhpIPAMClient.GetSectionsSubnets sectionID s with
  | ((_, some err), s1) => ((subnetID, some err), s1)
  | ((subnets, none), s1) =>
    let subnetID := subnets.Data.foldl
      (fun acc element => if element.Description = subnet then element.ID else acc) subnetID
    if subnetID.length = 0 then
      ((subnetID, some "Subnet Not Found"), s1)
    else
      ((subnetID, none), s1)

/-! ## Address locator -/

/-- The `for _, i := range addresses.Data` loop of `findExistingAddress` (index given), with
its two loop variables `address` and `totalFoundAddresses`; the early `return` ends it. -/
def findExistingAddressLoop (index : String) :
    List AddressSearchData → String → Nat → String × GoError
  | [], address, _ => (address, none)
  | i :: rest, address, totalFoundAddresses =>
    if i.Description = index then
      if totalFoundAddresses + 1 > 1 then
        (address, some "Multiple Indexed Addresses Found")
      else
        findExistingAddressLoop index rest i.IP (totalFoundAddresses + 1)
    else
      findExistingAddressLoop index rest address totalFoundAddresses

/-- Go `func (c *Client) findExistingAddress(hostname string, index string)
(string, error)`. -/
def findExistingAddress (c : Client σ) (hostname : String) (index : String) (s : σ) :
    (String × GoError) × σ :=
  let address : String := ""
  match c.PhpIPAMClient.GetAddressSearch hostname s with
  | ((_, some err), s1) => ((address, some err), s1)
  | ((addresses, none), s1) =>
    let totalFoundAddresses := addresses.Data.length
    if totalFoundAddresses = 0 then
      ((address, none), s1)
    else if index.length > 0 then
      (findExistingAddressLoop index addresses.Data address 0, s1)
    else if totalFoundAddresses > 1 then
      ((address, some "Multiple Addresses Found"), s1)
    else
      match addresses.Data with
      | first :: _ => ((first.IP, none), s1)
      | [] => ((address, none), s1) -- not reached: the list is not empty here

/-- Go `func (c *Client) getAddressID(address string) (string, error)`. -/
def getAddressID (c : Client σ) (address : String) (s : σ) : (String × GoError) × σ :=
  let addressID : String := ""
  match c.PhpIPAMClient.GetAddressSearchIP address s with
  | ((_, some err), s1) => ((addressID, some err), s1)
  | ((addressSearchIP, none), s1) =>
    match addressSearchIP.Data with
    | [only] => ((only.ID, none), s1)
    | _ => ((addressID, some "Address Over Allocated"), s1)

/-! ## Address info fetcher -/

/-- The `for _, address := range addressSearchData.Data` loop of `getAddressInformation`,
on the field `addressInformation.Index`. -/
def getAddressInformationIndexLoop (addressID : String) :
    List AddressSearchData → String → String
  | [], index => index
  | address :: rest, index =>
    if address.ID = addressID then
      match strconv_Atoi address.Description with
      | some _ => getAddressInformationIndexLoop addressID rest address.Description
      | none => getAddressInformationIndexLoop addressID rest index
    else
      getAddressInformationIndexLoop addressID rest index

/-- Go `func (c *Client) getAddressInformation(addressID string)
(*AddressInformation, error)`.
The pointer result is `none` for `nil`. -/
def getAddressInformation (c : Client σ) (addressID : String) (s : σ) :
    (Option AddressInformation × GoError) × σ :=
  let addressInformation := AddressInformation.zero
  match c.PhpIPAMClient.GetAddress addressID s with
  | ((_, some err), s1) => ((none, some err), s1)
  | ((addressData, none), s1) =>
    if addressData.Code = 200 then
      let addressInformation := { addressInformation with
        Hostname := addressData.Data.Hostname, IP := addressData.Data.IP }
      let subnetID := addressData.Data.SubnetID
      match c.PhpIPAMClient.GetAddressSearch addressInformation.Hostname s1 with
      | ((_, some err), s2) => ((none, some err), s2)
      | ((addressSearchData, none), s2) =>
        let addressInformation :=
          if addressSearchData.Code = 200 then
            { addressInformation with
              Index := getAddressInformationIndexLoop addressID addressSearchData.Data
                addressInformation.Index }
          else addressInformation
        match c.PhpIPAMClient.GetSubnet subnetID s2 with
        | ((_, some err), s3) => ((none, some err), s3)
        | ((subnetData, none), s3) =>
          if subnetData.Code = 200 then
            let addressInformation := { addressInformation with
              Subnet := subnetData.Data.Description,
              Broadcast := subnetData.Data.Calculation.Broadcast,
              Gateway := subnetData.Data.Gateway.IPAddress,
              BitMask := subnetData.Data.Calculation.BitMask }
            let sectionID := subnetData.Data.SectionID
            match c.PhpIPAMClient.GetSection sectionID s3 with
            | ((_, some err), s4) => ((none, some err), s4)
            | ((sectionData, none), s4) =>
              if sectionData.Code = 200 then
                ((some { addressInformation with Section := sectionData.Data.Name }, none), s4)
              else
                ((none, some "Subnet Section Not Found"), s4)
          else
            ((none, some "Address Subnet Not Found"), s3)
    else
      ((none, none), s1)

/-- Go `func checkAddressSubnet(existingSubnetID string, subnetID string) int`.
No function of the file calls it. -/
def checkAddressSubnet (existingSubnetID : String) (subnetID : String) : Int :=
  if existingSubnetID = subnetID then 1 else 0

/-! ## Allocator -/

/-- Go `func (c *Client) allocateNewAddress(subnetID, hostname, index string)`. -/
def allocateNewAddress (c : Client σ) (subnetID hostname index : String) (s : σ) :
    (AddressFirstFree × GoError) × σ :=
  match c.PhpIPAMClient.CreateAddressFirstFree subnetID hostname "terraform" index s with
  | ((newAddress, some err), s1) => ((newAddress, some err), s1)
  | ((newAddress, none), s1) => ((newAddress, none), s1)

/-- Go `func (c *Client) deleteExistingAddress(addressID string)`. -/
def deleteExistingAddress (c : Client σ) (addressID : String) (s : σ) :
    (AddressDelete × GoError) × σ :=
  match c.PhpIPAMClient.DeleteAddress addressID s with
  | ((deleteAddress, some err), s1) => ((deleteAddress, some err), s1)
  | ((deleteAddress, none), s1) => ((deleteAddress, none), s1)

/-! ## Reconciler -/

/-- The body of `create` between `addonLock.Lock()` and the deferred `addonLock.Unlock()`. -/
def createBody (c : Client σ) (sect subnet hostname : String) (update : Bool) (index : String)
    (s : σ) : (String × GoError) × σ :=
  let addressID : String := ""
  match findSectionID c sect s with
  | ((_, some err), s1) => ((addressID, some ("Error Getting Section ID: " ++ err)), s1)
  | ((sectionID, none), s1) =>
    match findSubnetID c sectionID subnet s1 with
    | ((_, some err), s2) => ((addressID, some ("Error Getting Subnet ID: " ++ err)), s2)
    | ((subnetID, none), s2) =>
      match findExistingAddress c hostname index s2 with
      | ((_, some err), s3) =>
        ((addressID, some ("Error Finding Existing Addresses: " ++ err)), s3)
      | ((address, none), s3) =>
        if address.length = 0 ∨ update = true then
          match allocateNewAddress c subnetID hostname index s3 with
          | ((_, some err), s4) =>
            ((addressID, some ("Error Allocating New Address: " ++ err)), s4)
          | ((newAddress, none), s4) =>
            match getAddressID c newAddress.IP s4 with
            | ((addressID, some _), s5) =>
              ((addressID, some ("Error Getting Created Address ID: " ++ newAddress.IP)), s5)
            | ((addressID, none), s5) => ((addressID, none), s5)
        else
          match getAddressID c address s3 with
          | ((addressID, some _), s4) =>
            ((addressID, some ("Error Getting Created Address ID: " ++ address)), s4)
          | ((addressID, none), s4) => ((addressID, none), s4)

/-- Go `func (c *Client) create(section, subnet, hostname string, update bool,
index string)`: the lock is taken first and released, by `defer`, on every return. -/
def create (addonLock : Mutex σ) (c : Client σ) (sect subnet hostname : String) (update : Bool)
    (index : String) (s : σ) : (String × GoError) × σ :=
  let s0 := addonLock.Lock s
  let r := createBody c sect subnet hostname update index s0
  (r.1, addonLock.Unlock r.2)

/-- Go `func (c *Client) delete(addressID string, update bool) error`. -/
def delete (c : Client σ) (addressID : String) (_update : Bool) (s : σ) : GoError × σ :=
  match deleteExistingAddress c addressID s with
  | ((_, some err), s1) => (some ("Delete Address Failed: " ++ err), s1)
  | ((_, none), s1) => (none, s1)

/-- The part of `*schema.ResourceData` the resource uses: `d.Id()`, `d.Get(key)` for the
string fields, and `d.HasChange(key)`. -/
structure ResourceData where
  Id : String
  Get : String → String
  HasChange : String → Bool

/-- Method `d.SetId(v)`. -/
def ResourceData.SetId (d : ResourceData) (v : String) : ResourceData :=
  { d with Id := v }

/-- Method `d.Set(key, value)`: later `d.Get(key)` returns `value`. -/
def ResourceData.Set (d : ResourceData) (key value : String) : ResourceData :=
  { d with Get := fun k => if k = key then value else d.Get k }

/-- How a Go function ends: it returns, or the runtime stops it on a nil-pointer
dereference. -/
inductive Run (α : Type) where
  | returned : α → Run α
  | nilDeref : Run α
deriving DecidableEq, Repr

/-- Go `func resourcePhpIPAMAddressRead(d *schema.ResourceData, m interface{}) error`.  The
result holds the resource data after the call and the returned error. -/
def resourcePhpIPAMAddressRead (c : Client σ) (d : ResourceData) (s : σ) :
    Run (ResourceData × GoError) × σ :=
  match getAddressInformation c d.Id s with
  | ((_, some err), s1) => (Run.returned (d, some ("Cannot Get Address Infomation: " ++ err)), s1)
  | ((none, none), s1) => (Run.nilDeref, s1) -- `addressInformation.Hostname` on a nil pointer
  | ((some addressInformation, none), s1) =>
    let d := d.Set "hostname" addressInformation.Hostname
    let d := d.Set "section" addressInformation.Section
    let d := d.Set "subnet" addressInformation.Subnet
    let d := d.Set "ip_address" addressInformation.IP
    let d := d.Set "broadcast" addressInformation.Broadcast
    let d := d.Set "gateway" addressInformation.Gateway
    let d := d.Set "bitmask" addressInformation.BitMask
    let d := d.Set "index" addressInformation.Index
    (Run.returned (d, none), s1)

/-- Go `func resourcePhpIPAMAddressCreate(d *schema.ResourceData, m interface{}) error`. -/
def resourcePhpIPAMAddressCreate (addonLock : Mutex σ) (c : Client σ) (d : ResourceData)
    (s : σ) : Run (ResourceData × GoError) × σ :=
  let sect := d.Get "section"
  let subnet := d.Get "subnet"
  let hostname := d.Get "hostname"
  let index := d.Get "index"
  match create addonLock c sect subnet hostname false index s with
  | ((_, some err), s1) => (Run.returned (d, some err), s1)
  | ((addressID, none), s1) => resourcePhpIPAMAddressRead c (d.SetId addressID) s1

/-- Go `func resourcePhpIPAMAddressrUpdate(d *schema.ResourceData, m interface{}) error`. -/
def resourcePhpIPAMAddressrUpdate (addonLock : Mutex σ) (c : Client σ) (d : ResourceData)
    (s : σ) : Run (ResourceData × GoError) × σ :=
  let sect := d.Get "section"
  let subnet := d.Get "subnet"
  let hostname := d.Get "hostname"
  let index := d.Get "index"
  let addressID := d.Id
  if d.HasChange "hostname" = true then
    match c.PhpIPAMClient.PatchUpdateAddress hostname addressID s with
    | ((_, some err), s1) => (Run.returned (d, some ("Address Update Failed: " ++ err)), s1)
    | ((_, none), s1) => resourcePhpIPAMAddressRead c d s1
  else
    match create addonLock c sect subnet hostname true index s with
    | ((_, some err), s1) => (Run.returned (d, some err), s1)
    | ((newAddressID, none), s1) =>
      match delete c addressID true s1 with
      | (some err, s2) => (Run.returned (d, some err), s2)
      | (none, s2) => resourcePhpIPAMAddressRead c (d.SetId newAddressID) s2

/-- Go `func resourcePhpIPAMAddressDelete(d *schema.ResourceData, m interface{}) error`. -/
def resourcePhpIPAMAddressDelete (c : Client σ) (d : ResourceData) (s : σ) : GoError × σ :=
  delete c d.Id false s

/-! ## Recording the calls

The theorems on single functions hold for every client.  To observe which remote calls and
which mutex operations a run makes, and in which order, a client is wrapped so that each call
is appended to a log carried next to the remote state. -/

/-- A call made on the phpIPAM client, or an operation on the process-wide mutex. -/
inductive Event where
  | Lock
  | Unlock
  | GetSections
  | GetSectionsSubnets (sectionID : String)
  | GetAddressSearch (hostname : String)
  | GetAddressSearchIP (ip : String)
  | GetAddress (id : String)
  | GetSubnet (id : String)
  | GetSection (id : String)
  | CreateAddressFirstFree (subnetID hostname tag index : String)
  | DeleteAddress (id : String)
  | PatchUpdateAddress (hostname id : String)
deriving DecidableEq, Repr

/-- Run a call of the underlying client and append `e` to the log. -/
def logged {α : Type} (call : σ → α × σ) (e : Event) (st : σ × List Event) :
    α × (σ × List Event) :=
  ((call st.1).1, ((call st.1).2, st.2 ++ [e]))

/-- The client `p` with every call recorded. -/
def recordingPhpIPAMClient (p : PhpIPAMClient σ) : PhpIPAMClient (σ × List Event) where
  GetSections := logged p.GetSections Event.GetSections
  GetSectionsSubnets := fun sectionID =>
    logged (p.GetSectionsSubnets sectionID) (Event.GetSectionsSubnets sectionID)
  GetAddressSearch := fun hostname =>
    logged (p.GetAddressSearch hostname) (Event.GetAddressSearch hostname)
  GetAddressSearchIP := fun ip => logged (p.GetAddressSearchIP ip) (Event.GetAddressSearchIP ip)
  GetAddress := fun id => logged (p.GetAddress id) (Event.GetAddress id)
  GetSubnet := fun id => logged (p.GetSubnet id) (Event.GetSubnet id)
  GetSection := fun id => logged (p.GetSection id) (Event.GetSection id)
  CreateAddressFirstFree := fun subnetID hostname tag index =>
    logged (p.CreateAddressFirstFree subnetID hostname tag index)
      (Event.CreateAddressFirstFree subnetID hostname tag index)
  DeleteAddress := fun id => logged (p.DeleteAddress id) (Event.DeleteAddress id)
  PatchUpdateAddress := fun hostname id =>
    logged (p.PatchUpdateAddress hostname id) (Event.PatchUpdateAddress hostname id)

/-- The provider client `c` with every remote call recorded. -/
def recording (c : Client σ) : Client (σ × List Event) :=
  { PhpIPAMClient := recordingPhpIPAMClient c.PhpIPAMClient }

/-- The process-wide mutex `addonLock`, recorded: it is local to the process, so taking and
releasing it leaves the remote state as it is. -/
def recordingLock : Mutex (σ × List Event) :=
  { Lock := fun st => (st.1, st.2 ++ [Event.Lock]),
    Unlock := fun st => (st.1, st.2 ++ [Event.Unlock]) }

/-- A mutex whose operations are not observed. -/
def silentLock : Mutex σ :=
  { Lock := fun s => s, Unlock := fun s => s }

/-- The events that only read the remote inventory. -/
def Event.isRead : Event → Bool
  | Event.GetSections => true
  | Event.GetSectionsSubnets _ => true
  | Event.GetAddressSearch _ => true
  | Event.GetAddressSearchIP _ => true
  | Event.GetAddress _ => true
  | Event.GetSubnet _ => true
  | Event.GetSection _ => true
  | _ => false

/-- The events on the process-wide mutex. -/
def Event.isMutex : Event → Bool
  | Event.Lock => true
  | Event.Unlock => true
  | _ => false

/-- The value a run returned, if it returned. -/
def Run.toOption {α : Type} : Run α → Option α
  | Run.returned a => some a
  | Run.nilDeref => none

/-! ## A concrete remote inventory -/

/-- An address of the inventory. -/
structure AddressRecord where
  ID : String
  IP : String
  Hostname : String
  SubnetID : String
  Description : String
deriving DecidableEq, Repr

/-- A subnet of the inventory; `Hosts` lists its usable IPs, lowest first. -/
structure SubnetRecord where
  ID : String
  Description : String
  SectionID : String
  Gateway : String
  Broadcast : String
  BitMask : String
  Hosts : List String
deriving DecidableEq, Repr

/-- Modelled from the spec: the remote phpIPAM inventory behind the capability surface of
section 6 (sections, subnets, addresses), which is not part of the repository.  `FreshIDs`
supplies the IDs of the addresses still to be created. -/
structure Inventory where
  Sections : List SectionsData
  Subnets : List SubnetRecord
  Addresses : List AddressRecord
  FreshIDs : List String
deriving DecidableEq, Repr

/-- The search entry of an address. -/
def AddressRecord.toSearch (a : AddressRecord) : AddressSearchData :=
  { ID := a.ID, IP := a.IP, Description := a.Description }

/-- The first host IP of a subnet that no address of the inventory uses. -/
def Inventory.firstFree (inv : Inventory) (sub : SubnetRecord) : Option String :=
  sub.Hosts.find? (fun ip => !(inv.Addresses.any (fun a => a.IP = ip)))

/-- Modelled from the spec: the capability surface of section 6 answered from an `Inventory`,
which stands for the phpIPAM server and its client, both outside the repository.
A lookup by ID answers code 200 when the ID exists and code 404 otherwise, without an error;
allocation, deletion and the hostname patch answer with an error when they cannot be done. -/
def inventoryPhpIPAMClient : PhpIPAMClient Inventory where
  GetSections := fun inv => (({ Code := 200, Data := inv.Sections }, none), inv)
  GetSectionsSubnets := fun sectionID inv =>
    (({ Code := 200,
        Data := (inv.Subnets.filter (fun n => n.SectionID = sectionID)).map
          (fun n => { ID := n.ID, Description := n.Description }) }, none), inv)
  GetAddressSearch := fun hostname inv =>
    let found := (inv.Addresses.filter (fun a => a.Hostname = hostname)).map AddressRecord.toSearch
    (({ Code := if found.isEmpty then 404 else 200, Data := found }, none), inv)
  GetAddressSearchIP := fun ip inv =>
    let found := (inv.Addresses.filter (fun a => a.IP = ip)).map (fun a => { ID := a.ID })
    (({ Code := if found.isEmpty then 404 else 200, Data := found }, none), inv)
  GetAddress := fun id inv =>
    match inv.Addresses.find? (fun a => a.ID = id) with
    | some a =>
      (({ Code := 200, Data := { Hostname := a.Hostname, IP := a.IP, SubnetID := a.SubnetID } },
        none), inv)
    | none => (({ Code := 404, Data := { Hostname := "", IP := "", SubnetID := "" } }, none), inv)
  GetSubnet := fun id inv =>
    match inv.Subnets.find? (fun n => n.ID = id) with
    | some n =>
      (({ Code := 200,
          Data := { Description := n.Description, SectionID := n.SectionID,
                    Gateway := { IPAddress := n.Gateway },
                    Calculation := { Broadcast := n.Broadcast, BitMask := n.BitMask } } }, none),
        inv)
    | none =>
      (({ Code := 404,
          Data := { Description := "", SectionID := "", Gateway := { IPAddress := "" },
                    Calculation := { Broadcast := "", BitMask := "" } } }, none), inv)
  GetSection := fun id inv =>
    match inv.Sections.find? (fun x => x.ID = id) with
    | some x => (({ Code := 200, Data := { Name := x.Name } }, none), inv)
    | none => (({ Code := 404, Data := { Name := "" } }, none), inv)
  CreateAddressFirstFree := fun subnetID hostname _tag index inv =>
    match inv.Subnets.find? (fun n => n.ID = subnetID), inv.FreshIDs with
    | some n, id :: ids =>
      match inv.firstFree n with
      | some ip =>
        (({ Code := 201, IP := ip }, none),
          { inv with
            Addresses := inv.Addresses ++
              [{ ID := id, IP := ip, Hostname := hostname, SubnetID := subnetID,
                 Description := index }],
            FreshIDs := ids })
      | none => (({ Code := 409, IP := "" }, some "No free addresses found"), inv)
    | _, _ => (({ Code := 404, IP := "" }, some "Subnet does not exist"), inv)
  DeleteAddress := fun id inv =>
    if inv.Addresses.any (fun a => a.ID = id) then
      (({ Code := 200 }, none),
        { inv with Addresses := inv.Addresses.filter (fun a => !(a.ID = id)) })
    else
      (({ Code := 404 }, some "Address does not exist"), inv)
  PatchUpdateAddress := fun hostname id inv =>
    if inv.Addresses.any (fun a => a.ID = id) then
      (({ Code := 200 }, none),
        { inv with
          Addresses := inv.Addresses.map
            (fun a => if a.ID = id then { a with Hostname := hostname } else a) })
    else
      (({ Code := 404 }, some "Address does not exist"), inv)

/-- Address IDs identify addresses: the IDs in use and the IDs still to be given out are
pairwise distinct. -/
abbrev Inventory.uniqueIDs (inv : Inventory) : Prop :=
  (inv.Addresses.map (fun a => a.ID) ++ inv.FreshIDs).Nodup

/-- The provider client over an `Inventory`. -/
def inventoryClient : Client Inventory :=
  { PhpIPAMClient := inventoryPhpIPAMClient }

/-- An inventory with one section, two subnets and one address, `web` in `net-b`. -/
def sampleInventory : Inventory :=
  { Sections := [{ ID := "1", Name := "prod" }],
    Subnets :=
      [{ ID := "10", Description := "net-a", SectionID := "1", Gateway := "10.0.0.1",
         Broadcast := "10.0.0.255", BitMask := "24", Hosts := ["10.0.0.2", "10.0.0.3"] },
       { ID := "11", Description := "net-b", SectionID := "1", Gateway := "10.0.1.1",
         Broadcast := "10.0.1.255", BitMask := "24", Hosts := ["10.0.1.2", "10.0.1.3"] }],
    Addresses :=
      [{ ID := "100", IP := "10.0.1.2", Hostname := "web", SubnetID := "11",
         Description := "" }],
    FreshIDs := ["101", "102"] }

/-- The sample inventory with a multi-homed host `db`: two addresses in `net-a`, told apart
by the index kept in their Description. -/
def multiHomedInventory : Inventory :=
  { sampleInventory with
    Addresses :=
      [{ ID := "100", IP := "10.0.1.2", Hostname := "web", SubnetID := "11",
         Description := "" },
       { ID := "200", IP := "10.0.0.2", Hostname := "db", SubnetID := "10",
         Description := "0" },
       { ID := "201", IP := "10.0.0.3", Hostname := "db", SubnetID := "10",
         Description := "1" }] }

/-- Resource data with ID `id`, the four desired fields, and the list of changed keys. -/
def sampleData (id sect subnet hostname index : String) (changed : List String) :
    ResourceData :=
  { Id := id,
    Get := fun k =>
      if k = "section" then sect else if k = "subnet" then subnet
      else if k = "hostname" then hostname else if k = "index" then index else "",
    HasChange := fun k => changed.contains k }

/-- The resource data `d` after `SetId id` and the eight `Set` calls of
`resourcePhpIPAMAddressRead`, in the order of the source. -/
def sampleReadBack (d : ResourceData)
    (id hostname sect subnet ip broadcast gateway bitmask index : String) : ResourceData :=
  ((((((((d.SetId id).Set "hostname" hostname).Set "section" sect).Set "subnet" subnet).Set
    "ip_address" ip).Set "broadcast" broadcast).Set "gateway" gateway).Set
    "bitmask" bitmask).Set "index" index

/-- The sample inventory after address `101` was allocated to host `app1` in `net-a`. -/
def sampleInventoryApp1 : Inventory :=
  { sampleInventory with
    Addresses :=
      [{ ID := "100", IP := "10.0.1.2", Hostname := "web", SubnetID := "11",
         Description := "" },
       { ID := "101", IP := "10.0.0.2", Hostname := "app1", SubnetID := "10",
         Description := "" }],
    FreshIDs := ["102"] }

/-- The inventory `sampleInventoryApp1` after address `102` was allocated to host `app2` in
`net-a`. -/
def sampleInventoryApp2 : Inventory :=
  { sampleInventory with
    Addresses :=
      [{ ID := "100", IP := "10.0.1.2", Hostname := "web", SubnetID := "11",
         Description := "" },
       { ID := "101", IP := "10.0.0.2", Hostname := "app1", SubnetID := "10",
         Description := "" },
       { ID := "102", IP := "10.0.0.3", Hostname := "app2", SubnetID := "10",
         Description := "" }],
    FreshIDs := [] }

/-- The sample inventory after host `web` was renamed `web2`. -/
def sampleInventoryWeb2 : Inventory :=
  { sampleInventory with
    Addresses :=
      [{ ID := "100", IP := "10.0.1.2", Hostname := "web2", SubnetID := "11",
         Description := "" }] }

/-! ## Helper lemmas -/

/-- Go's `len(x) == 0` on a string is `x == ""`. -/
theorem string_length_zero_iff (x : String) : x.length = 0 ↔ x = "" := by
  cases x with
  | mk d =>
    constructor
    · intro h
      have hd : d = [] := List.length_eq_zero.mp h
      subst hd
      rfl
    · intro h
      rw [h]
      rfl

/-- The scan of `findSectionID` leaves the accumulator alone on a list without a match. -/
theorem sectionScan_noMatch (sect : String) (l : List SectionsData) (acc : String)
    (h : ∀ x ∈ l, x.Name ≠ sect) :
    l.foldl (fun acc element => if element.Name = sect then element.ID else acc) acc = acc := by
  induction l generalizing acc with
  | nil => rfl
  | cons x xs ih =>
    have hx : x.Name ≠ sect := h x (List.mem_cons_self x xs)
    have hxs : ∀ y ∈ xs, y.Name ≠ sect := fun y hy => h y (List.mem_cons_of_mem x hy)
    simp only [List.foldl_cons, if_neg hx]
    exact ih acc hxs

/-- The scan of `findSectionID` ends on the ID of the last match. -/
theorem sectionScan_last (sect : String) (pre post : List SectionsData) (e : SectionsData)
    (acc : String) (he : e.Name = sect) (hpost : ∀ x ∈ post, x.Name ≠ sect) :
    (pre ++ e :: post).foldl (fun acc element => if element.Name = sect then element.ID else acc)
      acc = e.ID := by
  rw [List.foldl_append, List.foldl_cons, if_pos he]
  exact sectionScan_noMatch sect post e.ID hpost

/-- The indexed loop of `findExistingAddress` only looks at the entries whose Description is
the index. -/
theorem findExistingAddressLoop_filter (index : String) (l : List AddressSearchData)
    (address : String) (total : Nat) :
    findExistingAddressLoop index l address total =
      findExistingAddressLoop index (l.filter (fun i => i.Description = index)) address total := by
  induction l generalizing address total with
  | nil => rfl
  | cons x xs ih =>
    by_cases hx : x.Description = index
    · have hf : (x :: xs).filter (fun i => decide (i.Description = index)) =
          x :: xs.filter (fun i => decide (i.Description = index)) := by
        simp [List.filter_cons, hx]
      rw [hf]
      simp only [findExistingAddressLoop, if_pos hx]
      by_cases ht : total + 1 > 1
      · simp only [if_pos ht]
      · simp only [if_neg ht]
        exact ih x.IP (total + 1)
    · have hf : (x :: xs).filter (fun i => decide (i.Description = index)) =
          xs.filter (fun i => decide (i.Description = index)) := by
        simp [List.filter_cons, hx]
      rw [hf]
      simp only [findExistingAddressLoop, if_neg hx]
      exact ih address total

/-- With an index given and a search that succeeded, `findExistingAddress` is its loop run from
the empty address and the count 0. -/
theorem findExistingAddress_eq_loop (c : Client σ) (hostname index : String) (s s1 : σ)
    (addresses : AddressSearch)
    (h : c.PhpIPAMClient.GetAddressSearch hostname s = ((addresses, none), s1))
    (hindex : index ≠ "") :
    findExistingAddress c hostname index s =
      (findExistingAddressLoop index addresses.Data "" 0, s1) := by
  have hlen : index.length > 0 := by
    have hne : index.length ≠ 0 := fun h0 => hindex ((string_length_zero_iff index).mp h0)
    omega
  unfold findExistingAddress
  simp only [h]
  by_cases h0 : addresses.Data.length = 0
  · have hnil : addresses.Data = [] := List.length_eq_zero.mp h0
    simp [hnil, findExistingAddressLoop]
  · simp only [if_neg h0, if_pos hlen]

/-! ## Naming resolver: `findSectionID` -/

/-- C6, as amended.  Once `GetSections` has listed the sections: with no section named `sect`
the call fails with "Section Not Found"; otherwise the last listed section named `sect` decides
(the only one, when there is exactly one, that is when `pre` holds no match): its ID is
returned when that ID is not empty, and the call fails with "Section Not Found" when that ID
is the empty string, which the code uses as its not-found mark. -/
theorem findSectionID_lastMatch (c : Client σ) (sect : String) (s s1 : σ) (sections : Sections)
    (h : c.PhpIPAMClient.GetSections s = ((sections, none), s1)) :
    ((∀ x ∈ sections.Data, x.Name ≠ sect) →
        findSectionID c sect s = (("", some "Section Not Found"), s1)) ∧
    (∀ pre e post, sections.Data = pre ++ e :: post → e.Name = sect →
        (∀ x ∈ post, x.Name ≠ sect) →
        (e.ID ≠ "" → findSectionID c sect s = ((e.ID, none), s1)) ∧
        (e.ID = "" → findSectionID c sect s = (("", some "Section Not Found"), s1))) := by
  refine ⟨?_, ?_⟩
  · intro hno
    unfold findSectionID
    simp only [h]
    rw [sectionScan_noMatch sect sections.Data "" hno]
    rfl
  · intro pre e post hdata he hpost
    have hscan : sections.Data.foldl
        (fun acc element => if element.Name = sect then element.ID else acc) "" = e.ID := by
      rw [hdata]
      exact sectionScan_last sect pre post e "" he hpost
    refine ⟨?_, ?_⟩
    · intro hid
      have hlen : ¬ e.ID.length = 0 := fun h0 => hid ((string_length_zero_iff e.ID).mp h0)
      unfold findSectionID
      simp only [h, hscan, if_neg hlen]
    · intro hid
      unfold findSectionID
      simp only [h, hscan, hid]
      rfl

/-- Witness: in the sample inventory the only section named
`prod` has ID `1`. -/
theorem findSectionID_lastMatch_witness :
    findSectionID inventoryClient "prod" sampleInventory = (("1", none), sampleInventory) :=
  ((findSectionID_lastMatch inventoryClient "prod" sampleInventory sampleInventory
      { Code := 200, Data := [{ ID := "1", Name := "prod" }] } rfl).2
    [] { ID := "1", Name := "prod" } [] rfl rfl (by simp)).1 (by decide)

/-- C6 as stated fails: exactly one listed section is named `prod`, its ID is the empty
string, and the call does not return that ID but fails with "Section Not Found". -/
theorem findSectionID_emptyID_counterexample :
    (inventoryClient.PhpIPAMClient.GetSections
        { sampleInventory with Sections := [{ ID := "", Name := "prod" }] }).1 =
      ({ Code := 200, Data := [{ ID := "", Name := "prod" }] }, none) ∧
    (findSectionID inventoryClient "prod"
        { sampleInventory with Sections := [{ ID := "", Name := "prod" }] }).1 =
      ("", some "Section Not Found") := by
  constructor <;> rfl

/-! ## Address locator: `findExistingAddress` -/

/-- C4.  With a non-empty index and a search that succeeded with the list `addresses.Data`,
let M be its entries whose Description is the index.  Two or more entries in M: the call
fails with "Multiple Indexed Addresses Found".  Exactly one: its IP is returned.  None (which
includes an empty list): the empty string is returned without an error.  The result is the same
for every other successful search whose list has the same M, so entries with another
Description never influence it. -/
theorem findExistingAddress_indexed (c : Client σ) (hostname index : String) (s s1 : σ)
    (addresses : AddressSearch)
    (h : c.PhpIPAMClient.GetAddressSearch hostname s = ((addresses, none), s1))
    (hindex : index ≠ "") :
    (2 ≤ (addresses.Data.filter (fun i => i.Description = index)).length →
      ∃ a, findExistingAddress c hostname index s =
        ((a, some "Multiple Indexed Addresses Found"), s1)) ∧
    (∀ e, addresses.Data.filter (fun i => i.Description = index) = [e] →
      findExistingAddress c hostname index s = ((e.IP, none), s1)) ∧
    (addresses.Data.filter (fun i => i.Description = index) = [] →
      findExistingAddress c hostname index s = (("", none), s1)) ∧
    (∀ (c' : Client σ) (s' s1' : σ) (addresses' : AddressSearch),
      c'.PhpIPAMClient.GetAddressSearch hostname s' = ((addresses', none), s1') →
      addresses'.Data.filter (fun i => i.Description = index) =
        addresses.Data.filter (fun i => i.Description = index) →
      (findExistingAddress c' hostname index s').1 =
        (findExistingAddress c hostname index s).1) := by
  have hrun := findExistingAddress_eq_loop c hostname index s s1 addresses h hindex
  rw [findExistingAddressLoop_filter] at hrun
  refine ⟨?_, ?_, ?_, ?_⟩
  · intro h2
    rw [hrun]
    have hall : ∀ x ∈ addresses.Data.filter (fun i => decide (i.Description = index)),
        x.Description = index := fun x hx => by simpa using (List.mem_filter.mp hx).2
    generalize addresses.Data.filter (fun i => decide (i.Description = index)) = M at h2 hall
    match M, h2, hall with
    | [], h2, _ => simp at h2
    | [_], h2, _ => simp at h2
    | e1 :: e2 :: rest, _, hall =>
      have hd1 : e1.Description = index := hall e1 (List.mem_cons_self _ _)
      have hd2 : e2.Description = index :=
        hall e2 (List.mem_cons_of_mem _ (List.mem_cons_self _ _))
      exact ⟨e1.IP, by simp [findExistingAddressLoop, hd1, hd2]⟩
  · intro e hM
    rw [hrun, hM]
    have hmem : e ∈ addresses.Data.filter (fun i => decide (i.Description = index)) := by
      rw [hM]; exact List.mem_cons_self _ _
    have hd : e.Description = index := by simpa using (List.mem_filter.mp hmem).2
    simp [findExistingAddressLoop, hd]
  · intro hM
    rw [hrun, hM]
    rfl
  · intro c' s' s1' addresses' h' hsame
    have hrun' := findExistingAddress_eq_loop c' hostname index s' s1' addresses' h' hindex
    rw [findExistingAddressLoop_filter] at hrun'
    rw [hrun, hrun', hsame]

/-- Witness: host `db` has two addresses, one of them with
index `1`, and that one is returned. -/
theorem findExistingAddress_indexed_witness :
    findExistingAddress inventoryClient "db" "1" multiHomedInventory =
      (("10.0.0.3", none), multiHomedInventory) :=
  (findExistingAddress_indexed inventoryClient "db" "1" multiHomedInventory multiHomedInventory
      { Code := 200,
        Data := [{ ID := "200", IP := "10.0.0.2", Description := "0" },
                 { ID := "201", IP := "10.0.0.3", Description := "1" }] }
      rfl (by decide)).2.1 { ID := "201", IP := "10.0.0.3", Description := "1" } rfl

/-- C5.  With no index (the empty string) and a search that succeeded with the list
`addresses.Data`: an empty list gives the empty string without an error; a list of exactly
one entry gives that entry's IP; a longer list makes the call fail with
"Multiple Addresses Found", and the address returned with the error is the empty string, not
the first match. -/
theorem findExistingAddress_noIndex (c : Client σ) (hostname : String) (s s1 : σ)
    (addresses : AddressSearch)
    (h : c.PhpIPAMClient.GetAddressSearch hostname s = ((addresses, none), s1)) :
    (addresses.Data = [] → findExistingAddress c hostname "" s = (("", none), s1)) ∧
    (∀ e, addresses.Data = [e] → findExistingAddress c hostname "" s = ((e.IP, none), s1)) ∧
    (1 < addresses.Data.length →
      findExistingAddress c hostname "" s = (("", some "Multiple Addresses Found"), s1)) := by
  have hidx : ¬ ("".length > 0) := by decide
  refine ⟨?_, ?_, ?_⟩
  · intro hnil
    unfold findExistingAddress
    simp [h, hnil]
  · intro e he
    unfold findExistingAddress
    simp [h, he]
  · intro hlen
    have h0 : ¬ addresses.Data.length = 0 := by omega
    unfold findExistingAddress
    simp only [h, if_neg h0, if_neg hidx, gt_iff_lt, if_pos hlen]

/-- Witness: host `web` has exactly one address. -/
theorem findExistingAddress_noIndex_witness :
    findExistingAddress inventoryClient "web" "" sampleInventory =
      (("10.0.1.2", none), sampleInventory) :=
  (findExistingAddress_noIndex inventoryClient "web" sampleInventory sampleInventory
      { Code := 200, Data := [{ ID := "100", IP := "10.0.1.2", Description := "" }] }
      rfl).2.1 { ID := "100", IP := "10.0.1.2", Description := "" } rfl

/-! ## Address info fetcher: `getAddressInformation` -/

/-- The index loop run over two lists in a row. -/
theorem getAddressInformationIndexLoop_append (addressID : String)
    (l1 l2 : List AddressSearchData) (index : String) :
    getAddressInformationIndexLoop addressID (l1 ++ l2) index =
      getAddressInformationIndexLoop addressID l2
        (getAddressInformationIndexLoop addressID l1 index) := by
  induction l1 generalizing index with
  | nil => rfl
  | cons x xs ih =>
    simp only [List.cons_append, getAddressInformationIndexLoop]
    split
    · split
      · exact ih _
      · exact ih _
    · exact ih _

/-- The index loop leaves the index alone on a list without the address ID. -/
theorem getAddressInformationIndexLoop_noMatch (addressID : String)
    (l : List AddressSearchData) (index : String) (h : ∀ x ∈ l, x.ID ≠ addressID) :
    getAddressInformationIndexLoop addressID l index = index := by
  induction l generalizing index with
  | nil => rfl
  | cons x xs ih =>
    have hx : x.ID ≠ addressID := h x (List.mem_cons_self x xs)
    have hxs : ∀ y ∈ xs, y.ID ≠ addressID := fun y hy => h y (List.mem_cons_of_mem x hy)
    simp only [getAddressInformationIndexLoop, if_neg hx]
    exact ih index hxs

/-- The index loop only looks at the entries that carry the address ID. -/
theorem getAddressInformationIndexLoop_filter (addressID : String)
    (l : List AddressSearchData) (index : String) :
    getAddressInformationIndexLoop addressID l index =
      getAddressInformationIndexLoop addressID (l.filter (fun a => a.ID = addressID)) index := by
  induction l generalizing index with
  | nil => rfl
  | cons x xs ih =>
    by_cases hx : x.ID = addressID
    · have hf : (x :: xs).filter (fun a => decide (a.ID = addressID)) =
          x :: xs.filter (fun a => decide (a.ID = addressID)) := by
        simp [List.filter_cons, hx]
      rw [hf]
      simp only [getAddressInformationIndexLoop, if_pos hx]
      split
      · exact ih _
      · exact ih _
    · have hf : (x :: xs).filter (fun a => decide (a.ID = addressID)) =
          xs.filter (fun a => decide (a.ID = addressID)) := by
        simp [List.filter_cons, hx]
      rw [hf]
      simp only [getAddressInformationIndexLoop, if_neg hx]
      exact ih index

/-- The view built by `getAddressInformation` when the four calls succeed with code 200 on the
address, the subnet and the section. -/
theorem getAddressInformation_success (c : Client σ) (addressID : String) (s s1 s2 s3 s4 : σ)
    (addressData : Address) (addressSearchData : AddressSearch) (subnetData : Subnet)
    (sectionData : SectionResp)
    (h1 : c.PhpIPAMClient.GetAddress addressID s = ((addressData, none), s1))
    (hc1 : addressData.Code = 200)
    (h2 : c.PhpIPAMClient.GetAddressSearch addressData.Data.Hostname s1 =
      ((addressSearchData, none), s2))
    (h3 : c.PhpIPAMClient.GetSubnet addressData.Data.SubnetID s2 = ((subnetData, none), s3))
    (hc3 : subnetData.Code = 200)
    (h4 : c.PhpIPAMClient.GetSection subnetData.Data.SectionID s3 = ((sectionData, none), s4))
    (hc4 : sectionData.Code = 200) :
    getAddressInformation c addressID s =
      ((some
        { Hostname := addressData.Data.Hostname,
          IP := addressData.Data.IP,
          Section := sectionData.Data.Name,
          Subnet := subnetData.Data.Description,
          Broadcast := subnetData.Data.Calculation.Broadcast,
          Gateway := subnetData.Data.Gateway.IPAddress,
          BitMask := subnetData.Data.Calculation.BitMask,
          Index :=
            if addressSearchData.Code = 200 then
              getAddressInformationIndexLoop addressID addressSearchData.Data ""
            else "" }, none), s4) := by
  unfold getAddressInformation
  simp only [h1, hc1, if_true, h2, h3, hc3, h4, hc4]
  by_cases hc2 : addressSearchData.Code = 200
  · simp only [hc2, if_true, AddressInformation.zero]
  · simp only [hc2, if_false, AddressInformation.zero]

/-- C8.  With no transport error on the calls made: an address answer with a code other than
200 gives the absent result without an error; otherwise a subnet answer with a code other than
200 makes the call fail with "Address Subnet Not Found"; otherwise a section answer with a
code other than 200 makes it fail with "Subnet Section Not Found"; otherwise the call succeeds
with a view whose Hostname and IP are the address's, whose Subnet, Gateway, Broadcast and
BitMask are those of the subnet named by the address's SubnetID, and whose Section is the name
of the section named by that subnet's SectionID. -/
theorem getAddressInformation_steps (c : Client σ) (addressID : String) (s s1 : σ)
    (addressData : Address)
    (h1 : c.PhpIPAMClient.GetAddress addressID s = ((addressData, none), s1)) :
    (addressData.Code ≠ 200 → getAddressInformation c addressID s = ((none, none), s1)) ∧
    (addressData.Code = 200 →
      ∀ (addressSearchData : AddressSearch) (s2 : σ),
        c.PhpIPAMClient.GetAddressSearch addressData.Data.Hostname s1 =
          ((addressSearchData, none), s2) →
      ∀ (subnetData : Subnet) (s3 : σ),
        c.PhpIPAMClient.GetSubnet addressData.Data.SubnetID s2 = ((subnetData, none), s3) →
      (subnetData.Code ≠ 200 →
        getAddressInformation c addressID s = ((none, some "Address Subnet Not Found"), s3)) ∧
      (subnetData.Code = 200 →
        ∀ (sectionData : SectionResp) (s4 : σ),
          c.PhpIPAMClient.GetSection subnetData.Data.SectionID s3 = ((sectionData, none), s4) →
        (sectionData.Code ≠ 200 →
          getAddressInformation c addressID s =
            ((none, some "Subnet Section Not Found"), s4)) ∧
        (sectionData.Code = 200 →
          ∃ info, getAddressInformation c addressID s = ((some info, none), s4) ∧
            info.Hostname = addressData.Data.Hostname ∧
            info.IP = addressData.Data.IP ∧
            info.Subnet = subnetData.Data.Description ∧
            info.Gateway = subnetData.Data.Gateway.IPAddress ∧
            info.Broadcast = subnetData.Data.Calculation.Broadcast ∧
            info.BitMask = subnetData.Data.Calculation.BitMask ∧
            info.Section = sectionData.Data.Name))) := by
  refine ⟨?_, ?_⟩
  · intro hc1
    unfold getAddressInformation
    simp only [h1, if_neg hc1]
  · intro hc1 addressSearchData s2 h2 subnetData s3 h3
    refine ⟨?_, ?_⟩
    · intro hc3
      unfold getAddressInformation
      simp only [h1, hc1, if_true, h2, h3, if_neg hc3]
    · intro hc3 sectionData s4 h4
      refine ⟨?_, ?_⟩
      · intro hc4
        unfold getAddressInformation
        simp only [h1, hc1, if_true, h2, h3, hc3, h4, if_neg hc4]
      · intro hc4
        exact ⟨_, getAddressInformation_success c addressID s s1 s2 s3 s4 addressData
          addressSearchData subnetData sectionData h1 hc1 h2 h3 hc3 h4 hc4,
          rfl, rfl, rfl, rfl, rfl, rfl, rfl⟩

/-- Witness: address `100` of the sample inventory, fetched
through its subnet `11` and its section `1`. -/
theorem getAddressInformation_steps_witness :
    ∃ info, getAddressInformation inventoryClient "100" sampleInventory =
        ((some info, none), sampleInventory) ∧
      info.Hostname = "web" ∧ info.IP = "10.0.1.2" ∧ info.Subnet = "net-b" ∧
      info.Gateway = "10.0.1.1" ∧ info.Broadcast = "10.0.1.255" ∧ info.BitMask = "24" ∧
      info.Section = "prod" :=
  ((((getAddressInformation_steps inventoryClient "100" sampleInventory sampleInventory
        { Code := 200, Data := { Hostname := "web", IP := "10.0.1.2", SubnetID := "11" } }
        rfl).2 rfl
      { Code := 200, Data := [{ ID := "100", IP := "10.0.1.2", Description := "" }] }
      sampleInventory rfl
      { Code := 200,
        Data := { Description := "net-b", SectionID := "1", Gateway := { IPAddress := "10.0.1.1" },
                  Calculation := { Broadcast := "10.0.1.255", BitMask := "24" } } }
      sampleInventory rfl).2 rfl
    { Code := 200, Data := { Name := "prod" } } sampleInventory rfl).2 rfl)

/-- The Index of a view that `getAddressInformation` returned, from the hostname search it
made. -/
theorem getAddressInformation_index_eq (c : Client σ) (addressID : String) (s s1 s2 t : σ)
    (addressData : Address) (addressSearchData : AddressSearch) (info : AddressInformation)
    (h1 : c.PhpIPAMClient.GetAddress addressID s = ((addressData, none), s1))
    (h2 : c.PhpIPAMClient.GetAddressSearch addressData.Data.Hostname s1 =
      ((addressSearchData, none), s2))
    (hok : getAddressInformation c addressID s = ((some info, none), t)) :
    info.Index =
      if addressSearchData.Code = 200 then
        getAddressInformationIndexLoop addressID addressSearchData.Data ""
      else "" := by
  by_cases hc1 : addressData.Code = 200
  · rcases h3 : c.PhpIPAMClient.GetSubnet addressData.Data.SubnetID s2 with
      ⟨⟨subnetData, e3⟩, s3⟩
    cases e3 with
    | some err =>
      unfold getAddressInformation at hok
      simp [h1, hc1, h2, h3] at hok
    | none =>
      by_cases hc3 : subnetData.Code = 200
      · rcases h4 : c.PhpIPAMClient.GetSection subnetData.Data.SectionID s3 with
          ⟨⟨sectionData, e4⟩, s4⟩
        cases e4 with
        | some err =>
          unfold getAddressInformation at hok
          simp [h1, hc1, h2, h3, hc3, h4] at hok
        | none =>
          by_cases hc4 : sectionData.Code = 200
          · have hrun := getAddressInformation_success c addressID s s1 s2 s3 s4 addressData
              addressSearchData subnetData sectionData h1 hc1 h2 h3 hc3 h4 hc4
            rw [hrun] at hok
            have hinfo := Option.some.inj (congrArg (fun r => r.1.1) hok)
            rw [← hinfo]
          · unfold getAddressInformation at hok
            simp [h1, hc1, h2, h3, hc3, h4, hc4] at hok
      · unfold getAddressInformation at hok
        simp [h1, hc1, h2, h3, hc3] at hok
  · unfold getAddressInformation at hok
    simp [h1, hc1] at hok

/-- C10.  For a fetch that succeeded, with `addressSearchData` the answer of the hostname
search it made: when the search code is not 200, Index is empty; when no search entry has the
requested ID, Index is empty; when one entry `e` has the requested ID, Index is its
Description if `strconv.Atoi` accepts it and empty if not.  Index is the same for every other
successful fetch of that ID whose search (code 200) has the same entries with that ID, so
entries with another ID never affect it. -/
theorem getAddressInformation_index (c : Client σ) (addressID : String) (s s1 s2 t : σ)
    (addressData : Address) (addressSearchData : AddressSearch) (info : AddressInformation)
    (h1 : c.PhpIPAMClient.GetAddress addressID s = ((addressData, none), s1))
    (h2 : c.PhpIPAMClient.GetAddressSearch addressData.Data.Hostname s1 =
      ((addressSearchData, none), s2))
    (hok : getAddressInformation c addressID s = ((some info, none), t)) :
    (addressSearchData.Code ≠ 200 → info.Index = "") ∧
    (addressSearchData.Code = 200 →
      ((∀ x ∈ addressSearchData.Data, x.ID ≠ addressID) → info.Index = "") ∧
      (∀ pre e post, addressSearchData.Data = pre ++ e :: post → e.ID = addressID →
        (∀ x ∈ pre, x.ID ≠ addressID) → (∀ x ∈ post, x.ID ≠ addressID) →
        ((strconv_Atoi e.Description).isSome = true → info.Index = e.Description) ∧
        (strconv_Atoi e.Description = none → info.Index = "")) ∧
      (∀ (c' : Client σ) (s' s1' s2' t' : σ) (addressData' : Address)
          (addressSearchData' : AddressSearch) (info' : AddressInformation),
        c'.PhpIPAMClient.GetAddress addressID s' = ((addressData', none), s1') →
        c'.PhpIPAMClient.GetAddressSearch addressData'.Data.Hostname s1' =
          ((addressSearchData', none), s2') →
        getAddressInformation c' addressID s' = ((some info', none), t') →
        addressSearchData'.Code = 200 →
        addressSearchData'.Data.filter (fun a => a.ID = addressID) =
          addressSearchData.Data.filter (fun a => a.ID = addressID) →
        info'.Index = info.Index)) := by
  have hidx := getAddressInformation_index_eq c addressID s s1 s2 t addressData
    addressSearchData info h1 h2 hok
  refine ⟨?_, ?_⟩
  · intro hc2
    rw [hidx, if_neg hc2]
  · intro hc2
    rw [if_pos hc2] at hidx
    refine ⟨?_, ?_, ?_⟩
    · intro hno
      rw [hidx]
      exact getAddressInformationIndexLoop_noMatch addressID _ "" hno
    · intro pre e post hdata he hpre hpost
      have hloop : info.Index =
          getAddressInformationIndexLoop addressID [e] "" := by
        rw [hidx, hdata, getAddressInformationIndexLoop_append,
          getAddressInformationIndexLoop_noMatch addressID pre "" hpre]
        have hsplit : e :: post = [e] ++ post := rfl
        rw [hsplit, getAddressInformationIndexLoop_append,
          getAddressInformationIndexLoop_noMatch addressID post _ hpost]
      refine ⟨?_, ?_⟩
      · intro hsome
        obtain ⟨n, hn⟩ := Option.isSome_iff_exists.mp hsome
        rw [hloop]
        simp only [getAddressInformationIndexLoop, if_pos he, hn]
      · intro hnone
        rw [hloop]
        simp only [getAddressInformationIndexLoop, if_pos he, hnone]
    · intro c' s' s1' s2' t' addressData' addressSearchData' info' h1' h2' hok' hc2' hsame
      have hidx' := getAddressInformation_index_eq c' addressID s' s1' s2' t' addressData'
        addressSearchData' info' h1' h2' hok'
      rw [if_pos hc2'] at hidx'
      rw [hidx, hidx', getAddressInformationIndexLoop_filter addressID addressSearchData'.Data,
        getAddressInformationIndexLoop_filter addressID addressSearchData.Data, hsame]

/-- Witness: address `201` of the multi-homed host carries
the Description `1`, which is an integer, and it is read back as the Index; the other entry of
the search, with ID `200`, plays no part. -/
theorem getAddressInformation_index_witness :
    getAddressInformation inventoryClient "201" multiHomedInventory =
      ((some (AddressInformation.mk "db" "10.0.0.3" "prod" "net-a" "10.0.0.255" "10.0.0.1"
        "24" "1"), none), multiHomedInventory) ∧
    (AddressInformation.mk "db" "10.0.0.3" "prod" "net-a" "10.0.0.255" "10.0.0.1" "24"
      "1").Index = "1" :=
  ⟨rfl,
   ((((getAddressInformation_index inventoryClient "201" multiHomedInventory multiHomedInventory
        multiHomedInventory multiHomedInventory
        { Code := 200, Data := { Hostname := "db", IP := "10.0.0.3", SubnetID := "10" } }
        { Code := 200,
          Data := [{ ID := "200", IP := "10.0.0.2", Description := "0" },
                   { ID := "201", IP := "10.0.0.3", Description := "1" }] }
        (AddressInformation.mk "db" "10.0.0.3" "prod" "net-a" "10.0.0.255" "10.0.0.1" "24" "1")
        rfl rfl rfl).2 rfl).2.1
      [{ ID := "200", IP := "10.0.0.2", Description := "0" }]
      { ID := "201", IP := "10.0.0.3", Description := "1" } [] rfl rfl
      (by decide) (by simp)).1 (by decide))⟩

/-! ## Reconciler: `create` -/

/-- An error of `getAddressID` comes with the empty address ID. -/
theorem getAddressID_error (c : Client σ) (address addressID err : String) (s s1 : σ)
    (h : getAddressID c address s = ((addressID, some err), s1)) : addressID = "" := by
  unfold getAddressID at h
  split at h
  · simp only [Prod.mk.injEq] at h
    exact h.1.1.symm
  · split at h
    · simp at h
    · simp only [Prod.mk.injEq] at h
      exact h.1.1.symm

/-- An error of the body of `create` comes with the empty address ID. -/
theorem createBody_error (c : Client σ) (sect subnet hostname : String) (update : Bool)
    (index addressID err : String) (s s1 : σ)
    (h : createBody c sect subnet hostname update index s = ((addressID, some err), s1)) :
    addressID = "" := by
  unfold createBody at h
  split at h
  · simp only [Prod.mk.injEq] at h
    exact h.1.1.symm
  · split at h
    · simp only [Prod.mk.injEq] at h
      exact h.1.1.symm
    · split at h
      · simp only [Prod.mk.injEq] at h
        exact h.1.1.symm
      · split at h
        · split at h
          · simp only [Prod.mk.injEq] at h
            exact h.1.1.symm
          · split at h
            · rename_i id5 e5 s5 hget
              simp only [Prod.mk.injEq] at h
              rw [← h.1.1]
              exact getAddressID_error c _ id5 e5 _ s5 hget
            · simp at h
        · split at h
          · rename_i id4 e4 s4 hget
            simp only [Prod.mk.injEq] at h
            rw [← h.1.1]
            exact getAddressID_error c _ id4 e4 _ s4 hget
          · simp at h

/-- C7.  Whenever `create` returns an error, for every input, lock and client, the address ID
returned with it is the empty string; and `resourcePhpIPAMAddressCreate`, which calls `create`
on the desired fields with the flag `false`, then returns that same error with the resource
data as it received it: `SetId` has not run, the resource ID is unchanged. -/
theorem create_error_no_identity (addonLock : Mutex σ) (c : Client σ)
    (sect subnet hostname : String) (update : Bool) (index addressID err : String) (s s1 : σ)
    (h : create addonLock c sect subnet hostname update index s = ((addressID, some err), s1)) :
    addressID = "" ∧
    (∀ d : ResourceData, d.Get "section" = sect → d.Get "subnet" = subnet →
      d.Get "hostname" = hostname → d.Get "index" = index → update = false →
      resourcePhpIPAMAddressCreate addonLock c d s = (Run.returned (d, some err), s1)) := by
  refine ⟨?_, ?_⟩
  · unfold create at h
    simp only [Prod.mk.injEq] at h
    exact createBody_error c sect subnet hostname update index addressID err
      (addonLock.Lock s) _ (Prod.ext h.1 rfl)
  · intro d hsect hsubnet hhost hindex hupdate
    subst hsect hsubnet hhost hindex hupdate
    unfold resourcePhpIPAMAddressCreate
    simp only [h]

/-- Witness: the sample inventory has no section `dev`, so
`create` fails, and the resource keeps the empty ID it came with. -/
theorem create_error_no_identity_witness :
    create silentLock inventoryClient "dev" "net-a" "web" false "" sampleInventory =
      (("", some "Error Getting Section ID: Section Not Found"), sampleInventory) ∧
    (resourcePhpIPAMAddressCreate silentLock inventoryClient
        (sampleData "" "dev" "net-a" "web" "" []) sampleInventory).1 =
      Run.returned (sampleData "" "dev" "net-a" "web" "" [],
        some "Error Getting Section ID: Section Not Found") :=
  ⟨rfl, congrArg Prod.fst
    ((create_error_no_identity silentLock inventoryClient "dev" "net-a" "web" false ""
      "" "Error Getting Section ID: Section Not Found" sampleInventory sampleInventory rfl).2
      (sampleData "" "dev" "net-a" "web" "" []) rfl rfl rfl rfl rfl)⟩

/-! ## The calls a run makes -/

/-- A read event is not a mutex event. -/
theorem Event.isMutex_of_isRead (e : Event) (h : e.isRead = true) : e.isMutex = false := by
  cases e <;> simp_all [Event.isRead, Event.isMutex]

/-- The remote state after `findSectionID` is the one left by `GetSections`. -/
theorem findSectionID_state (c : Client σ) (sect : String) (s : σ) :
    (findSectionID c sect s).2 = (c.PhpIPAMClient.GetSections s).2 := by
  unfold findSectionID
  split
  · rename_i heq
    rw [heq]
  · rename_i heq
    rw [heq]
    dsimp only
    repeat' split
    all_goals rfl

/-- The remote state after `findSubnetID` is the one left by `GetSectionsSubnets`. -/
theorem findSubnetID_state (c : Client σ) (sectionID subnet : String) (s : σ) :
    (findSubnetID c sectionID subnet s).2 = (c.PhpIPAMClient.GetSectionsSubnets sectionID s).2 := by
  unfold findSubnetID
  split
  · rename_i heq
    rw [heq]
  · rename_i heq
    rw [heq]
    dsimp only
    repeat' split
    all_goals rfl

/-- The remote state after `findExistingAddress` is the one left by `GetAddressSearch`. -/
theorem findExistingAddress_state (c : Client σ) (hostname index : String) (s : σ) :
    (findExistingAddress c hostname index s).2 =
      (c.PhpIPAMClient.GetAddressSearch hostname s).2 := by
  unfold findExistingAddress
  split
  · rename_i heq
    rw [heq]
  · rename_i heq
    rw [heq]
    dsimp only
    repeat' split
    all_goals rfl

/-- The remote state after `getAddressID` is the one left by `GetAddressSearchIP`. -/
theorem getAddressID_state (c : Client σ) (address : String) (s : σ) :
    (getAddressID c address s).2 = (c.PhpIPAMClient.GetAddressSearchIP address s).2 := by
  unfold getAddressID
  split
  · rename_i heq
    rw [heq]
  · rename_i heq
    rw [heq]
    dsimp only
    repeat' split
    all_goals rfl

/-- The remote state after `allocateNewAddress` is the one left by `CreateAddressFirstFree`,
called with the tag `terraform`. -/
theorem allocateNewAddress_state (c : Client σ) (subnetID hostname index : String) (s : σ) :
    (allocateNewAddress c subnetID hostname index s).2 =
      (c.PhpIPAMClient.CreateAddressFirstFree subnetID hostname "terraform" index s).2 := by
  unfold allocateNewAddress
  split <;> (rename_i heq; rw [heq])

/-- The remote state after `delete` is the one left by `DeleteAddress`. -/
theorem delete_state (c : Client σ) (addressID : String) (update : Bool) (s : σ) :
    (delete c addressID update s).2 = (c.PhpIPAMClient.DeleteAddress addressID s).2 := by
  have hdel : (deleteExistingAddress c addressID s).2 =
      (c.PhpIPAMClient.DeleteAddress addressID s).2 := by
    unfold deleteExistingAddress
    split <;> (rename_i heq; rw [heq])
  unfold delete
  split <;> (rename_i heq; rw [← hdel, heq])

/-- A recorded call appends its event to the log. -/
theorem logged_log {α : Type} (call : σ → α × σ) (e : Event) (st : σ × List Event) :
    (logged call e st).2.2 = st.2 ++ [e] := rfl

/-- The log after `findSectionID`. -/
theorem findSectionID_log (c : Client σ) (sect : String) (st : σ × List Event) :
    (findSectionID (recording c) sect st).2.2 = st.2 ++ [Event.GetSections] := by
  rw [findSectionID_state]
  rfl

/-- The log after `findSubnetID`. -/
theorem findSubnetID_log (c : Client σ) (sectionID subnet : String) (st : σ × List Event) :
    (findSubnetID (recording c) sectionID subnet st).2.2 =
      st.2 ++ [Event.GetSectionsSubnets sectionID] := by
  rw [findSubnetID_state]
  rfl

/-- The log after `findExistingAddress`. -/
theorem findExistingAddress_log (c : Client σ) (hostname index : String)
    (st : σ × List Event) :
    (findExistingAddress (recording c) hostname index st).2.2 =
      st.2 ++ [Event.GetAddressSearch hostname] := by
  rw [findExistingAddress_state]
  rfl

/-- The log after `getAddressID`. -/
theorem getAddressID_log (c : Client σ) (address : String) (st : σ × List Event) :
    (getAddressID (recording c) address st).2.2 = st.2 ++ [Event.GetAddressSearchIP address] := by
  rw [getAddressID_state]
  rfl

/-- The log after `allocateNewAddress`. -/
theorem allocateNewAddress_log (c : Client σ) (subnetID hostname index : String)
    (st : σ × List Event) :
    (allocateNewAddress (recording c) subnetID hostname index st).2.2 =
      st.2 ++ [Event.CreateAddressFirstFree subnetID hostname "terraform" index] := by
  rw [allocateNewAddress_state]
  rfl

/-- The log after `delete`: the one call `DeleteAddress`, and no operation on the mutex. -/
theorem delete_log (c : Client σ) (addressID : String) (update : Bool) (st : σ × List Event) :
    (delete (recording c) addressID update st).2.2 = st.2 ++ [Event.DeleteAddress addressID] := by
  rw [delete_state]
  rfl

/-- The log after `getAddressInformation`: read events only. -/
theorem getAddressInformation_log (c : Client σ) (addressID : String) (st : σ × List Event) :
    ∃ evs, (getAddressInformation (recording c) addressID st).2.2 = st.2 ++ evs ∧
      ∀ e ∈ evs, e.isRead = true := by
  unfold getAddressInformation
  have hlog1 : ∀ st : σ × List Event,
      ((recording c).PhpIPAMClient.GetAddress addressID st).2.2 =
        st.2 ++ [Event.GetAddress addressID] := fun _ => rfl
  have hlog2 : ∀ (h : String) (st : σ × List Event),
      ((recording c).PhpIPAMClient.GetAddressSearch h st).2.2 =
        st.2 ++ [Event.GetAddressSearch h] := fun _ _ => rfl
  have hlog3 : ∀ (i : String) (st : σ × List Event),
      ((recording c).PhpIPAMClient.GetSubnet i st).2.2 =
        st.2 ++ [Event.GetSubnet i] := fun _ _ => rfl
  have hlog4 : ∀ (i : String) (st : σ × List Event),
      ((recording c).PhpIPAMClient.GetSection i st).2.2 =
        st.2 ++ [Event.GetSection i] := fun _ _ => rfl
  split
  · rename_i heq1
    have h1 := hlog1 st
    rw [heq1] at h1
    exact ⟨[Event.GetAddress addressID], h1, by simp [Event.isRead]⟩
  · rename_i addressData s1 heq1
    have h1 := hlog1 st
    rw [heq1] at h1
    simp only at h1
    split
    · dsimp only
      split
      · rename_i s2 heq2
        have h2 := hlog2 addressData.Data.Hostname s1
        rw [heq2] at h2
        simp only at h2
        exact ⟨[Event.GetAddress addressID, Event.GetAddressSearch addressData.Data.Hostname],
          by rw [h2, h1]; simp, by simp [Event.isRead]⟩
      · rename_i s2 heq2
        have h2 := hlog2 addressData.Data.Hostname s1
        rw [heq2] at h2
        simp only at h2
        split
        · rename_i s3 heq3
          have h3 := hlog3 addressData.Data.SubnetID s2
          rw [heq3] at h3
          simp only at h3
          exact ⟨[Event.GetAddress addressID,
              Event.GetAddressSearch addressData.Data.Hostname,
              Event.GetSubnet addressData.Data.SubnetID],
            by rw [h3, h2, h1]; simp, by simp [Event.isRead]⟩
        · rename_i subnetData s3 heq3
          have h3 := hlog3 addressData.Data.SubnetID s2
          rw [heq3] at h3
          simp only at h3
          split
          · have h4 := hlog4 subnetData.Data.SectionID s3
            split
            · rename_i s4 heq4
              rw [heq4] at h4
              simp only at h4
              exact ⟨[Event.GetAddress addressID,
                  Event.GetAddressSearch addressData.Data.Hostname,
                  Event.GetSubnet addressData.Data.SubnetID,
                  Event.GetSection subnetData.Data.SectionID],
                by rw [h4, h3, h2, h1]; simp, by simp [Event.isRead]⟩
            · rename_i s4 heq4
              rw [heq4] at h4
              simp only at h4
              split <;>
              exact ⟨[Event.GetAddress addressID,
                  Event.GetAddressSearch addressData.Data.Hostname,
                  Event.GetSubnet addressData.Data.SubnetID,
                  Event.GetSection subnetData.Data.SectionID],
                by rw [h4, h3, h2, h1]; simp, by simp [Event.isRead]⟩
          · exact ⟨[Event.GetAddress addressID,
                Event.GetAddressSearch addressData.Data.Hostname,
                Event.GetSubnet addressData.Data.SubnetID],
              by rw [h3, h2, h1]; simp, by simp [Event.isRead]⟩
    · exact ⟨[Event.GetAddress addressID], h1, by simp [Event.isRead]⟩

/-- The log after the body of `create`: remote calls only, no operation on the mutex; and a
forced run that succeeds has called `CreateAddressFirstFree` for the hostname and index. -/
theorem createBody_log (c : Client σ) (sect subnet hostname : String) (update : Bool)
    (index : String) (st st1 : σ × List Event) (r : String × GoError)
    (h : createBody (recording c) sect subnet hostname update index st = (r, st1)) :
    ∃ evs, st1.2 = st.2 ++ evs ∧ (∀ e ∈ evs, e.isMutex = false) ∧
      (update = true → r.2 = none →
        ∃ subnetID,
          Event.CreateAddressFirstFree subnetID hostname "terraform" index ∈ evs) := by
  unfold createBody at h
  split at h
  · rename_i a1 heq1
    have h1 := findSectionID_log c sect st
    rw [heq1] at h1
    simp only at h1
    cases h
    exact ⟨[Event.GetSections], h1, by simp [Event.isMutex], by simp⟩
  · rename_i sectionID a1 heq1
    have h1 := findSectionID_log c sect st
    rw [heq1] at h1
    simp only at h1
    split at h
    · rename_i a2 heq2
      have h2 := findSubnetID_log c sectionID subnet a1
      rw [heq2] at h2
      simp only at h2
      cases h
      exact ⟨[Event.GetSections, Event.GetSectionsSubnets sectionID],
        by simp only [h2, h1]; simp, by simp [Event.isMutex], by simp⟩
    · rename_i subnetID a2 heq2
      have h2 := findSubnetID_log c sectionID subnet a1
      rw [heq2] at h2
      simp only at h2
      split at h
      · rename_i a3 heq3
        have h3 := findExistingAddress_log c hostname index a2
        rw [heq3] at h3
        simp only at h3
        cases h
        exact ⟨[Event.GetSections, Event.GetSectionsSubnets sectionID,
            Event.GetAddressSearch hostname],
          by simp only [h3, h2, h1]; simp, by simp [Event.isMutex], by simp⟩
      · rename_i address a3 heq3
        have h3 := findExistingAddress_log c hostname index a2
        rw [heq3] at h3
        simp only at h3
        split at h
        · split at h
          · rename_i a4 heq4
            have h4 := allocateNewAddress_log c subnetID hostname index a3
            rw [heq4] at h4
            simp only at h4
            cases h
            exact ⟨[Event.GetSections, Event.GetSectionsSubnets sectionID,
                Event.GetAddressSearch hostname,
                Event.CreateAddressFirstFree subnetID hostname "terraform" index],
              by simp only [h4, h3, h2, h1]; simp, by simp [Event.isMutex], by simp⟩
          · rename_i newAddress a4 heq4
            have h4 := allocateNewAddress_log c subnetID hostname index a3
            rw [heq4] at h4
            simp only at h4
            have h5 := getAddressID_log c newAddress.IP a4
            split at h <;>
            (rename_i a5 heq5
             rw [heq5] at h5
             simp only at h5
             cases h
             exact ⟨[Event.GetSections, Event.GetSectionsSubnets sectionID,
                 Event.GetAddressSearch hostname,
                 Event.CreateAddressFirstFree subnetID hostname "terraform" index,
                 Event.GetAddressSearchIP newAddress.IP],
               by simp only [h5, h4, h3, h2, h1]; simp, by simp [Event.isMutex],
               fun _ _ => ⟨subnetID, by simp⟩⟩)
        · rename_i hcond
          have hup : update = false := by
            cases update
            · rfl
            · exact absurd (Or.inr rfl) hcond
          have h4 := getAddressID_log c address a3
          split at h <;>
          (rename_i a4 heq4
           rw [heq4] at h4
           simp only at h4
           cases h
           exact ⟨[Event.GetSections, Event.GetSectionsSubnets sectionID,
               Event.GetAddressSearch hostname, Event.GetAddressSearchIP address],
             by simp only [h4, h3, h2, h1]; simp, by simp [Event.isMutex],
             fun hu => by rw [hup] at hu; cases hu⟩)

/-- The log after `create`: the lock is taken before the first remote call and released after
the last one, on every return path, and is not touched in between. -/
theorem create_log (c : Client σ) (sect subnet hostname : String) (update : Bool)
    (index : String) (st st1 : σ × List Event) (r : String × GoError)
    (h : create recordingLock (recording c) sect subnet hostname update index st = (r, st1)) :
    ∃ evs, st1.2 = st.2 ++ Event.Lock :: evs ++ [Event.Unlock] ∧
      (∀ e ∈ evs, e.isMutex = false) ∧
      (update = true → r.2 = none →
        ∃ subnetID,
          Event.CreateAddressFirstFree subnetID hostname "terraform" index ∈ evs) := by
  unfold create at h
  dsimp only at h
  obtain ⟨evs, hlog, hmutex, hforce⟩ := createBody_log c sect subnet hostname update index
    (recordingLock.Lock st)
    (createBody (recording c) sect subnet hostname update index (recordingLock.Lock st)).2
    (createBody (recording c) sect subnet hostname update index (recordingLock.Lock st)).1 rfl
  cases h
  refine ⟨evs, ?_, hmutex, hforce⟩
  show (createBody (recording c) sect subnet hostname update index
    (recordingLock.Lock st)).2.2 ++ [Event.Unlock] = _
  rw [hlog]
  simp [recordingLock]

/-- The log after `resourcePhpIPAMAddressRead`: read events only. -/
theorem resourcePhpIPAMAddressRead_log (c : Client σ) (d : ResourceData)
    (st : σ × List Event) :
    ∃ evs, (resourcePhpIPAMAddressRead (recording c) d st).2.2 = st.2 ++ evs ∧
      ∀ e ∈ evs, e.isRead = true := by
  obtain ⟨evs, hlog, hread⟩ := getAddressInformation_log c d.Id st
  refine ⟨evs, ?_, hread⟩
  rw [← hlog]
  unfold resourcePhpIPAMAddressRead
  split <;> (rename_i heq; rw [heq])

/-- The function `resourcePhpIPAMAddressRead` never changes the resource ID. -/
theorem resourcePhpIPAMAddressRead_id (c : Client σ) (d d1 : ResourceData) (s s1 : σ)
    (e : GoError) (h : resourcePhpIPAMAddressRead c d s = (Run.returned (d1, e), s1)) :
    d1.Id = d.Id := by
  unfold resourcePhpIPAMAddressRead at h
  split at h
  · cases h
    rfl
  · cases h
  · cases h
    rfl

/-! ## Reconciler: `resourcePhpIPAMAddressRead` on a vanished address -/

/-- C3, what the code does.  When `GetAddress` answers without a transport error and with a
code other than 200, `getAddressInformation` returns the absent result `(nil, nil)`, and
`resourcePhpIPAMAddressRead`, which tests the error only, goes on to read
`addressInformation.Hostname` through the nil pointer: the run ends on a nil dereference and
reports nothing. -/
theorem resourcePhpIPAMAddressRead_absent (c : Client σ) (d : ResourceData) (s s1 : σ)
    (addressData : Address)
    (h1 : c.PhpIPAMClient.GetAddress d.Id s = ((addressData, none), s1))
    (hcode : addressData.Code ≠ 200) :
    getAddressInformation c d.Id s = ((none, none), s1) ∧
    resourcePhpIPAMAddressRead c d s = (Run.nilDeref, s1) := by
  have hinfo : getAddressInformation c d.Id s = ((none, none), s1) := by
    unfold getAddressInformation
    simp only [h1, if_neg hcode]
  refine ⟨hinfo, ?_⟩
  unfold resourcePhpIPAMAddressRead
  simp only [hinfo]

/-- Witness: `Delete` of address `100` succeeds, and
the `Read` of that ID which follows ends on a nil dereference. -/
theorem resourcePhpIPAMAddressRead_absent_witness :
    resourcePhpIPAMAddressDelete inventoryClient (sampleData "100" "prod" "net-b" "web" "" [])
        sampleInventory = (none, { sampleInventory with Addresses := [] }) ∧
    resourcePhpIPAMAddressRead inventoryClient (sampleData "100" "prod" "net-b" "web" "" [])
        { sampleInventory with Addresses := [] } =
      (Run.nilDeref, { sampleInventory with Addresses := [] }) :=
  ⟨rfl,
   (resourcePhpIPAMAddressRead_absent inventoryClient (sampleData "100" "prod" "net-b" "web" "" [])
      { sampleInventory with Addresses := [] } { sampleInventory with Addresses := [] }
      { Code := 404, Data := { Hostname := "", IP := "", SubnetID := "" } } rfl (by decide)).2⟩

/-! ## Reconciler: `create` followed by `Read` -/

/-- C1, what the code does in the reuse branch.  Host `web` is recorded in subnet `net-b`;
`create` for `web` in subnet `net-a` of the same section finds that address by hostname, adopts
it without looking at its subnet and returns its ID `100`; the `Read` that follows reports the
subnet `net-b`, not the `net-a` given to `create`.  The comparison `checkAddressSubnet`, which
no function calls, tells the two subnet IDs apart. -/
theorem create_reuse_subnet_mismatch :
    create silentLock inventoryClient "prod" "net-a" "web" false "" sampleInventory =
      (("100", none), sampleInventory) ∧
    getAddressInformation inventoryClient "100" sampleInventory =
      ((some { Hostname := "web", IP := "10.0.1.2", Section := "prod", Subnet := "net-b",
               Broadcast := "10.0.1.255", Gateway := "10.0.1.1", BitMask := "24",
               Index := "" }, none), sampleInventory) ∧
    (resourcePhpIPAMAddressCreate silentLock inventoryClient
        (sampleData "" "prod" "net-a" "web" "" []) sampleInventory).1.toOption.map
        (fun r => (r.1.Id, r.1.Get "hostname", r.1.Get "section", r.1.Get "subnet", r.2)) =
      some ("100", "web", "prod", "net-b", none) ∧
    "net-b" ≠ "net-a" ∧
    checkAddressSubnet "11" "10" = 0 := by
  refine ⟨rfl, rfl, rfl, by decide, rfl⟩

/-! ## Two `Create` calls run one after the other on the inventory -/

/-- On the inventory `findSectionID` leaves the state as it is. -/
theorem inventory_findSectionID_state (sect : String) (inv : Inventory) :
    (findSectionID inventoryClient sect inv).2 = inv := by
  rw [findSectionID_state]
  rfl

/-- On the inventory `findSubnetID` leaves the state as it is. -/
theorem inventory_findSubnetID_state (sectionID subnet : String) (inv : Inventory) :
    (findSubnetID inventoryClient sectionID subnet inv).2 = inv := by
  rw [findSubnetID_state]
  rfl

/-- On the inventory `findExistingAddress` leaves the state as it is. -/
theorem inventory_findExistingAddress_state (hostname index : String) (inv : Inventory) :
    (findExistingAddress inventoryClient hostname index inv).2 = inv := by
  rw [findExistingAddress_state]
  rfl

/-- On the inventory `getAddressID` leaves the state as it is. -/
theorem inventory_getAddressID_state (address : String) (inv : Inventory) :
    (getAddressID inventoryClient address inv).2 = inv := by
  rw [getAddressID_state]
  rfl

/-- An address that the indexed loop returns without an error is the one it started from or
the IP of an entry of the list. -/
theorem findExistingAddressLoop_mem (index : String) (l : List AddressSearchData)
    (address0 : String) (total : Nat) (address : String)
    (h : findExistingAddressLoop index l address0 total = (address, none)) :
    address = address0 ∨ ∃ x ∈ l, x.IP = address := by
  induction l generalizing address0 total with
  | nil =>
    simp only [findExistingAddressLoop, Prod.mk.injEq] at h
    exact Or.inl h.1.symm
  | cons x xs ih =>
    simp only [findExistingAddressLoop] at h
    split at h
    · split at h
      · simp at h
      · rcases ih x.IP (total + 1) h with h0 | ⟨y, hy, hip⟩
        · exact Or.inr ⟨x, List.mem_cons_self _ _, h0.symm⟩
        · exact Or.inr ⟨y, List.mem_cons_of_mem _ hy, hip⟩
    · rcases ih address0 total h with h0 | ⟨y, hy, hip⟩
      · exact Or.inl h0
      · exact Or.inr ⟨y, List.mem_cons_of_mem _ hy, hip⟩

/-- On the inventory, a non-empty address found by `findExistingAddress` is the IP of an
address recorded under that hostname. -/
theorem inventory_findExistingAddress_mem (hostname index address : String)
    (inv inv1 : Inventory)
    (h : findExistingAddress inventoryClient hostname index inv = ((address, none), inv1))
    (hne : ¬ address.length = 0) :
    ∃ a ∈ inv.Addresses, a.Hostname = hostname ∧ a.IP = address := by
  have hsearch : ∀ x ∈ (inv.Addresses.filter (fun a => a.Hostname = hostname)).map
      AddressRecord.toSearch, ∃ a ∈ inv.Addresses, a.Hostname = hostname ∧ a.IP = x.IP := by
    intro x hx
    obtain ⟨a, ha, hax⟩ := List.mem_map.mp hx
    have hmem := List.mem_filter.mp ha
    exact ⟨a, hmem.1, by simpa using hmem.2, by rw [← hax]; rfl⟩
  have hs : inventoryClient.PhpIPAMClient.GetAddressSearch hostname inv =
      (({ Code := if ((inv.Addresses.filter (fun a => a.Hostname = hostname)).map
            AddressRecord.toSearch).isEmpty then 404 else 200,
          Data := (inv.Addresses.filter (fun a => a.Hostname = hostname)).map
            AddressRecord.toSearch }, none), inv) := rfl
  unfold findExistingAddress at h
  simp only [hs] at h
  split at h
  · simp only [Prod.mk.injEq] at h
    exact absurd (by rw [← h.1.1]; rfl) hne
  · split at h
    · simp only [Prod.mk.injEq] at h
      rcases findExistingAddressLoop_mem index _ "" 0 address h.1 with h0 | ⟨x, hx, hip⟩
      · exact absurd (by rw [h0]; rfl) hne
      · obtain ⟨a, ha, hhost, haip⟩ := hsearch x hx
        exact ⟨a, ha, hhost, haip.trans hip⟩
    · split at h
      · simp at h
      · split at h
        · rename_i first rest hdata
          simp only [Prod.mk.injEq] at h
          have hx : first ∈ (inv.Addresses.filter (fun a => a.Hostname = hostname)).map
              AddressRecord.toSearch := by
            rw [hdata]
            exact List.mem_cons_self _ _
          obtain ⟨a, ha, hhost, haip⟩ := hsearch first hx
          exact ⟨a, ha, hhost, haip.trans h.1.1⟩
        · simp only [Prod.mk.injEq] at h
          exact absurd (by rw [← h.1.1]; rfl) hne

/-- On the inventory, `getAddressID` succeeds on an IP exactly when one address carries that
IP, and returns the ID of that address. -/
theorem inventory_getAddressID_ok (ip id : String) (inv inv1 : Inventory)
    (h : getAddressID inventoryClient ip inv = ((id, none), inv1)) :
    inv1 = inv ∧ ∃ a, inv.Addresses.filter (fun x => x.IP = ip) = [a] ∧ a.ID = id := by
  have hstate := inventory_getAddressID_state ip inv
  rw [h] at hstate
  refine ⟨hstate, ?_⟩
  have hs : inventoryClient.PhpIPAMClient.GetAddressSearchIP ip inv =
      (({ Code := if ((inv.Addresses.filter (fun a => a.IP = ip)).map
            (fun a => ({ ID := a.ID } : AddressSearchIPData))).isEmpty then 404 else 200,
          Data := (inv.Addresses.filter (fun a => a.IP = ip)).map
            (fun a => ({ ID := a.ID } : AddressSearchIPData)) }, none), inv) := rfl
  unfold getAddressID at h
  simp only [hs] at h
  split at h
  · rename_i only hdata
    simp only [Prod.mk.injEq] at h
    generalize inv.Addresses.filter (fun a => decide (a.IP = ip)) = found at hdata
    match found, hdata with
    | [a], hdata =>
      simp only [List.map_cons, List.map_nil, List.cons.injEq, and_true] at hdata
      exact ⟨a, rfl, by rw [← h.1.1, ← hdata]⟩
  · simp at h

/-- On the inventory, an allocation that succeeds appends one address, with the first fresh ID
and an IP that no address carried before. -/
theorem inventory_allocateNewAddress_ok (subnetID hostname index : String)
    (inv inv1 : Inventory) (newAddress : AddressFirstFree)
    (h : allocateNewAddress inventoryClient subnetID hostname index inv =
      ((newAddress, none), inv1)) :
    ∃ id ids, inv.FreshIDs = id :: ids ∧ inv1.FreshIDs = ids ∧
      inv1.Addresses = inv.Addresses ++
        [{ ID := id, IP := newAddress.IP, Hostname := hostname, SubnetID := subnetID,
           Description := index }] ∧
      ∀ a ∈ inv.Addresses, a.IP ≠ newAddress.IP := by
  have hcall : inventoryClient.PhpIPAMClient.CreateAddressFirstFree subnetID hostname "terraform"
      index inv = ((newAddress, none), inv1) := by
    unfold allocateNewAddress at h
    split at h
    · simp at h
    · rename_i heq
      rw [heq]
      exact h
  simp only [inventoryClient, inventoryPhpIPAMClient] at hcall
  split at hcall
  · rename_i n id ids hsub hfresh
    split at hcall
    · rename_i ip hfree
      simp only [Prod.mk.injEq] at hcall
      obtain ⟨⟨hnew, _⟩, hinv⟩ := hcall
      have hip : newAddress.IP = ip := by rw [← hnew]
      have hpred := List.find?_some hfree
      refine ⟨id, ids, hfresh, by rw [← hinv], by rw [← hinv, hip], ?_⟩
      intro a ha hcontra
      rw [hip] at hcontra
      simp only [Bool.not_eq_true', List.any_eq_false, decide_eq_true_eq] at hpred
      exact hpred a ha hcontra
    · simp at hcall
  · simp at hcall

/-- On the inventory, a `create` that succeeds returns the ID of the one address that carries
its IP in the resulting inventory; that address is recorded under the hostname; and the
inventory is unchanged (an existing address was adopted) or extended at its end by that
address, which took the first fresh ID (a new address was allocated). -/
theorem inventory_create_ok (sect subnet hostname : String) (update : Bool)
    (index id : String) (inv inv1 : Inventory)
    (h : create silentLock inventoryClient sect subnet hostname update index inv =
      ((id, none), inv1)) :
    ∃ a, inv1.Addresses.filter (fun x => x.IP = a.IP) = [a] ∧ a.Hostname = hostname ∧
      a.ID = id ∧
      (inv1 = inv ∨ ∃ ids, inv.FreshIDs = a.ID :: ids ∧ inv1.FreshIDs = ids ∧
        inv1.Addresses = inv.Addresses ++ [a]) := by
  have hbody : createBody inventoryClient sect subnet hostname update index inv =
      ((id, none), inv1) := by
    unfold create at h
    exact h
  unfold createBody at hbody
  split at hbody
  · simp at hbody
  · rename_i sectionID s1 heq1
    have hs1 := inventory_findSectionID_state sect inv
    rw [heq1] at hs1
    simp only at hs1
    subst hs1
    split at hbody
    · simp at hbody
    · rename_i subnetID s2 heq2
      have hs2 := inventory_findSubnetID_state sectionID subnet s1
      rw [heq2] at hs2
      simp only at hs2
      subst hs2
      split at hbody
      · simp at hbody
      · rename_i address s3 heq3
        have hs3 := inventory_findExistingAddress_state hostname index s2
        rw [heq3] at hs3
        simp only at hs3
        subst hs3
        split at hbody
        · split at hbody
          · simp at hbody
          · rename_i newAddress s4 heq4
            obtain ⟨idn, ids, hfresh, hfresh1, haddr, hfree⟩ :=
              inventory_allocateNewAddress_ok subnetID hostname index s3 s4 newAddress heq4
            split at hbody
            · simp at hbody
            · rename_i addressID s5 heq5
              simp only [Prod.mk.injEq] at hbody
              obtain ⟨⟨hid, _⟩, hinv⟩ := hbody
              obtain ⟨hs5, a, hfilter, haid⟩ :=
                inventory_getAddressID_ok newAddress.IP addressID s4 s5 heq5
              subst hs5
              subst hinv
              have hnone : s3.Addresses.filter (fun x => decide (x.IP = newAddress.IP)) = [] := by
                apply List.filter_eq_nil_iff.mpr
                intro x hx
                simpa using hfree x hx
              rw [haddr, List.filter_append, hnone] at hfilter
              simp only [List.nil_append, List.filter_cons, List.filter_nil, decide_True,
                if_true, List.cons.injEq, and_true] at hfilter
              subst hfilter
              refine ⟨_, ?_, rfl, haid.trans hid, Or.inr ⟨ids, hfresh, hfresh1, haddr⟩⟩
              rw [haddr, List.filter_append, hnone]
              simp
        · rename_i hcond
          have hne : ¬ address.length = 0 := fun h0 => hcond (Or.inl h0)
          obtain ⟨a0, ha0, hhost, hip⟩ :=
            inventory_findExistingAddress_mem hostname index address s3 s3 heq3 hne
          split at hbody
          · simp at hbody
          · rename_i addressID s4 heq4
            simp only [Prod.mk.injEq] at hbody
            obtain ⟨⟨hid, _⟩, hinv⟩ := hbody
            obtain ⟨hs4, a, hfilter, haid⟩ :=
              inventory_getAddressID_ok address addressID s3 s4 heq4
            subst hs4
            subst hinv
            have hmem : a0 ∈ s4.Addresses.filter (fun x => decide (x.IP = address)) :=
              List.mem_filter.mpr ⟨ha0, by simpa using hip⟩
            rw [hfilter] at hmem
            have ha : a0 = a := by simpa using hmem
            subst ha
            refine ⟨a0, ?_, hhost, haid.trans hid, Or.inl rfl⟩
            rw [hip]
            exact hfilter

/-- Distinct IDs stay distinct through a `create` that succeeds. -/
theorem inventory_create_uniqueIDs (sect subnet hostname : String) (update : Bool)
    (index id : String) (inv inv1 : Inventory) (hwf : inv.uniqueIDs)
    (h : create silentLock inventoryClient sect subnet hostname update index inv =
      ((id, none), inv1)) : inv1.uniqueIDs := by
  obtain ⟨a, _, _, _, hcase⟩ :=
    inventory_create_ok sect subnet hostname update index id inv inv1 h
  rcases hcase with hsame | ⟨ids, hfresh, hfresh1, haddr⟩
  · rw [hsame]
    exact hwf
  · unfold Inventory.uniqueIDs at hwf ⊢
    rw [hfresh] at hwf
    rw [haddr, hfresh1]
    simpa [List.map_append, List.append_assoc] using hwf

/-- On the inventory, a fetch that succeeds leaves the state as it is, and the IP of its view is
the IP of the first address that carries the requested ID. -/
theorem inventory_getAddressInformation_ok (id : String) (inv inv1 : Inventory)
    (info : AddressInformation)
    (h : getAddressInformation inventoryClient id inv = ((some info, none), inv1)) :
    inv1 = inv ∧ ∃ b, inv.Addresses.find? (fun a => a.ID = id) = some b ∧ info.IP = b.IP := by
  cases hfind : inv.Addresses.find? (fun a => a.ID = id) with
  | none =>
    have h1 : inventoryClient.PhpIPAMClient.GetAddress id inv =
        (({ Code := 404, Data := { Hostname := "", IP := "", SubnetID := "" } }, none), inv) := by
      simp only [inventoryClient, inventoryPhpIPAMClient, hfind]
    unfold getAddressInformation at h
    simp [h1] at h
  | some b =>
    have h1 : inventoryClient.PhpIPAMClient.GetAddress id inv =
        (({ Code := 200,
            Data := { Hostname := b.Hostname, IP := b.IP, SubnetID := b.SubnetID } }, none),
          inv) := by
      simp only [inventoryClient, inventoryPhpIPAMClient, hfind]
    have h2 : inventoryClient.PhpIPAMClient.GetAddressSearch b.Hostname inv =
        (((inventoryClient.PhpIPAMClient.GetAddressSearch b.Hostname inv).1.1, none), inv) := rfl
    cases hsub : inv.Subnets.find? (fun n => n.ID = b.SubnetID) with
    | none =>
      have h3 : inventoryClient.PhpIPAMClient.GetSubnet b.SubnetID inv =
          (({ Code := 404,
              Data := { Description := "", SectionID := "", Gateway := { IPAddress := "" },
                        Calculation := { Broadcast := "", BitMask := "" } } }, none), inv) := by
        simp only [inventoryClient, inventoryPhpIPAMClient, hsub]
      unfold getAddressInformation at h
      rw [h1] at h
      simp only [if_true] at h
      rw [h2] at h
      simp only at h
      rw [h3] at h
      simp at h
    | some n =>
      have h3 : inventoryClient.PhpIPAMClient.GetSubnet b.SubnetID inv =
          (({ Code := 200,
              Data := { Description := n.Description, SectionID := n.SectionID,
                        Gateway := { IPAddress := n.Gateway },
                        Calculation := { Broadcast := n.Broadcast, BitMask := n.BitMask } } },
            none), inv) := by
        simp only [inventoryClient, inventoryPhpIPAMClient, hsub]
      cases hsec : inv.Sections.find? (fun x => x.ID = n.SectionID) with
      | none =>
        have h4 : inventoryClient.PhpIPAMClient.GetSection n.SectionID inv =
            (({ Code := 404, Data := { Name := "" } }, none), inv) := by
          simp only [inventoryClient, inventoryPhpIPAMClient, hsec]
        unfold getAddressInformation at h
        rw [h1] at h
        simp only [if_true] at h
        rw [h2] at h
        simp only at h
        rw [h3] at h
        simp only [if_true] at h
        rw [h4] at h
        simp at h
      | some x =>
        have h4 : inventoryClient.PhpIPAMClient.GetSection n.SectionID inv =
            (({ Code := 200, Data := { Name := x.Name } }, none), inv) := by
          simp only [inventoryClient, inventoryPhpIPAMClient, hsec]
        have hrun := getAddressInformation_success inventoryClient id inv inv inv inv inv
          _ _ _ _ h1 rfl h2 h3 rfl h4 rfl
        rw [hrun] at h
        simp only [Prod.mk.injEq, Option.some.injEq, and_true] at h
        obtain ⟨hinfo, hinv⟩ := h
        exact ⟨hinv.symm, b, rfl, by rw [← hinfo]⟩

/-- A `Read` that returns without an error has fetched a view and reports its IP in the field
`ip_address`. -/
theorem resourcePhpIPAMAddressRead_ok (c : Client σ) (d r : ResourceData) (s s1 : σ)
    (h : resourcePhpIPAMAddressRead c d s = (Run.returned (r, none), s1)) :
    ∃ info, getAddressInformation c d.Id s = ((some info, none), s1) ∧
      r.Get "ip_address" = info.IP := by
  unfold resourcePhpIPAMAddressRead at h
  split at h
  · simp at h
  · simp at h
  · rename_i info s2 heq
    simp only [Prod.mk.injEq, Run.returned.injEq, and_true] at h
    obtain ⟨hr, hs⟩ := h
    subst hs
    subst hr
    exact ⟨info, heq, rfl⟩

/-- A `Create` that returns without an error has run `create` without the force flag on the
desired fields, set the resource ID to the address ID returned, and run `Read`. -/
theorem resourcePhpIPAMAddressCreate_ok (addonLock : Mutex σ) (c : Client σ)
    (d r : ResourceData) (s s2 : σ)
    (h : resourcePhpIPAMAddressCreate addonLock c d s = (Run.returned (r, none), s2)) :
    ∃ id s1,
      create addonLock c (d.Get "section") (d.Get "subnet") (d.Get "hostname") false
        (d.Get "index") s = ((id, none), s1) ∧
      resourcePhpIPAMAddressRead c (d.SetId id) s1 = (Run.returned (r, none), s2) := by
  unfold resourcePhpIPAMAddressCreate at h
  dsimp only at h
  split at h
  · simp at h
  · rename_i id s1 heq
    exact ⟨id, s1, heq, h⟩

/-- On an inventory with distinct IDs, a `Create` that returns without an error reports in
`ip_address` the IP of an address recorded under the desired hostname, the only address of the
resulting inventory with that IP; the resulting inventory keeps every address it had, and its
IDs are distinct. -/
theorem inventory_Create_ok (d r : ResourceData) (inv inv1 : Inventory)
    (hwf : inv.uniqueIDs)
    (h : resourcePhpIPAMAddressCreate silentLock inventoryClient d inv =
      (Run.returned (r, none), inv1)) :
    inv1.uniqueIDs ∧ (∀ x ∈ inv.Addresses, x ∈ inv1.Addresses) ∧
    ∃ a, inv1.Addresses.filter (fun x => x.IP = a.IP) = [a] ∧
      a.Hostname = d.Get "hostname" ∧ r.Get "ip_address" = a.IP := by
  obtain ⟨id, invc, hcreate, hread⟩ :=
    resourcePhpIPAMAddressCreate_ok silentLock inventoryClient d r inv inv1 h
  obtain ⟨info, hget, hip⟩ :=
    resourcePhpIPAMAddressRead_ok inventoryClient (d.SetId id) r invc inv1 hread
  obtain ⟨hinv, b, hfind, hinfo⟩ :=
    inventory_getAddressInformation_ok id invc inv1 info hget
  subst hinv
  have hwf1 := inventory_create_uniqueIDs _ _ _ _ _ id inv inv1 hwf hcreate
  obtain ⟨a, hfilter, hhost, haid, hcase⟩ := inventory_create_ok _ _ _ _ _ id inv inv1 hcreate
  have ha : a ∈ inv1.Addresses :=
    (List.mem_filter.mp (by rw [hfilter]; exact List.mem_cons_self _ _)).1
  have hb : b ∈ inv1.Addresses := List.mem_of_find?_eq_some hfind
  have hbid : b.ID = id := by simpa using List.find?_some hfind
  have hnodup : (inv1.Addresses.map (fun x => x.ID)).Nodup := List.Nodup.of_append_left hwf1
  have hba : b = a := List.inj_on_of_nodup_map hnodup hb ha (hbid.trans haid.symm)
  refine ⟨hwf1, ?_, a, hfilter, hhost, by rw [hip, hinfo, hba]⟩
  intro x hx
  rcases hcase with hsame | ⟨ids, _, _, haddr⟩
  · rw [hsame]
    exact hx
  · rw [haddr]
    exact List.mem_append_left _ hx

/-- On an inventory with distinct IDs, two `Create` calls for different hostnames, run one
after the other, never report the same IP. -/
theorem inventory_sequential_Create (d1 d2 r1 r2 : ResourceData) (inv inv1 inv2 : Inventory)
    (hwf : inv.uniqueIDs) (hne : d1.Get "hostname" ≠ d2.Get "hostname")
    (h1 : resourcePhpIPAMAddressCreate silentLock inventoryClient d1 inv =
      (Run.returned (r1, none), inv1))
    (h2 : resourcePhpIPAMAddressCreate silentLock inventoryClient d2 inv1 =
      (Run.returned (r2, none), inv2)) :
    r1.Get "ip_address" ≠ r2.Get "ip_address" := by
  obtain ⟨hwf1, _, a1, hfilter1, hhost1, hip1⟩ := inventory_Create_ok d1 r1 inv inv1 hwf h1
  obtain ⟨_, hkeep, a2, hfilter2, hhost2, hip2⟩ := inventory_Create_ok d2 r2 inv1 inv2 hwf1 h2
  intro heq
  have hsame : a1.IP = a2.IP := by rw [← hip1, ← hip2, heq]
  have ha1 : a1 ∈ inv1.Addresses :=
    (List.mem_filter.mp (by rw [hfilter1]; exact List.mem_cons_self _ _)).1
  have hmem : a1 ∈ inv2.Addresses.filter (fun x => decide (x.IP = a2.IP)) :=
    List.mem_filter.mpr ⟨hkeep a1 ha1, by simpa using hsame⟩
  rw [hfilter2] at hmem
  have ha : a1 = a2 := by simpa using hmem
  exact hne (by rw [← hhost1, ← hhost2, ha])

/-! ## The process-wide lock -/

/-- C9, as amended.  On every run of `create`, whatever its inputs and the answers of the
remote, the lock is taken before the first remote call and released after the last one, and
is not touched in between: all the remote calls of `create` are made with the lock held.
`delete` (and so `resourcePhpIPAMAddressDelete`) makes its one call `DeleteAddress` without
taking the lock, and `resourcePhpIPAMAddressRead` makes read calls only, without the lock.
The lock makes the `create` sequences of two `Create` calls run one after the other; run so
on a remote inventory whose address IDs are distinct, two `Create` calls for different
hostnames, in the same subnet or not, never both receive the same IP. -/
theorem addonLock_discipline (c : Client σ) (st : σ × List Event) :
    (∀ sect subnet hostname update index,
      ∃ evs, (create recordingLock (recording c) sect subnet hostname update index st).2.2 =
          st.2 ++ Event.Lock :: evs ++ [Event.Unlock] ∧
        ∀ e ∈ evs, e.isMutex = false) ∧
    (∀ addressID update,
      (delete (recording c) addressID update st).2.2 =
        st.2 ++ [Event.DeleteAddress addressID]) ∧
    (∀ d : ResourceData,
      (resourcePhpIPAMAddressDelete (recording c) d st).2.2 =
        st.2 ++ [Event.DeleteAddress d.Id]) ∧
    (∀ d : ResourceData,
      ∃ evs, (resourcePhpIPAMAddressRead (recording c) d st).2.2 = st.2 ++ evs ∧
        ∀ e ∈ evs, e.isRead = true) ∧
    (∀ (d1 d2 r1 r2 : ResourceData) (inv inv1 inv2 : Inventory),
      inv.uniqueIDs → d1.Get "hostname" ≠ d2.Get "hostname" →
      resourcePhpIPAMAddressCreate silentLock inventoryClient d1 inv =
        (Run.returned (r1, none), inv1) →
      resourcePhpIPAMAddressCreate silentLock inventoryClient d2 inv1 =
        (Run.returned (r2, none), inv2) →
      r1.Get "ip_address" ≠ r2.Get "ip_address") := by
  refine ⟨?_, ?_, ?_, ?_, ?_⟩
  · intro sect subnet hostname update index
    obtain ⟨evs, hlog, hmutex, _⟩ := create_log c sect subnet hostname update index st
      (create recordingLock (recording c) sect subnet hostname update index st).2
      (create recordingLock (recording c) sect subnet hostname update index st).1 rfl
    exact ⟨evs, hlog, hmutex⟩
  · intro addressID update
    exact delete_log c addressID update st
  · intro d
    exact delete_log c d.Id false st
  · intro d
    exact resourcePhpIPAMAddressRead_log c d st
  · intro d1 d2 r1 r2 inv inv1 inv2 hwf hne h1 h2
    exact inventory_sequential_Create d1 d2 r1 r2 inv inv1 inv2 hwf hne h1 h2

/-- Witness: two `Create` calls run one after the other on the sample inventory, for the hosts
`app1` and `app2` in subnet `net-a`, receive `10.0.0.2` and `10.0.0.3`. -/
theorem addonLock_discipline_witness :
    sampleInventory.uniqueIDs ∧
    resourcePhpIPAMAddressCreate silentLock inventoryClient
        (sampleData "" "prod" "net-a" "app1" "" []) sampleInventory =
      (Run.returned
        (sampleReadBack (sampleData "" "prod" "net-a" "app1" "" []) "101" "app1" "prod" "net-a"
          "10.0.0.2" "10.0.0.255" "10.0.0.1" "24" "", none),
       sampleInventoryApp1) ∧
    resourcePhpIPAMAddressCreate silentLock inventoryClient
        (sampleData "" "prod" "net-a" "app2" "" []) sampleInventoryApp1 =
      (Run.returned
        (sampleReadBack (sampleData "" "prod" "net-a" "app2" "" []) "102" "app2" "prod" "net-a"
          "10.0.0.3" "10.0.0.255" "10.0.0.1" "24" "", none),
       sampleInventoryApp2) ∧
    (sampleReadBack (sampleData "" "prod" "net-a" "app1" "" []) "101" "app1" "prod" "net-a"
      "10.0.0.2" "10.0.0.255" "10.0.0.1" "24" "").Get "ip_address" ≠
    (sampleReadBack (sampleData "" "prod" "net-a" "app2" "" []) "102" "app2" "prod" "net-a"
      "10.0.0.3" "10.0.0.255" "10.0.0.1" "24" "").Get "ip_address" :=
  ⟨by decide, rfl, rfl,
   (addonLock_discipline inventoryClient (sampleInventory, [])).2.2.2.2
      (sampleData "" "prod" "net-a" "app1" "" []) (sampleData "" "prod" "net-a" "app2" "" [])
      (sampleReadBack (sampleData "" "prod" "net-a" "app1" "" []) "101" "app1" "prod" "net-a"
        "10.0.0.2" "10.0.0.255" "10.0.0.1" "24" "")
      (sampleReadBack (sampleData "" "prod" "net-a" "app2" "" []) "102" "app2" "prod" "net-a"
        "10.0.0.3" "10.0.0.255" "10.0.0.1" "24" "")
      sampleInventory sampleInventoryApp1 sampleInventoryApp2
      (by decide) (by decide) rfl rfl⟩

/-- C9 as stated fails: a run of `Delete` that succeeds makes the call `DeleteAddress` and
never takes the lock. -/
theorem delete_without_lock_counterexample :
    (resourcePhpIPAMAddressDelete (recording inventoryClient)
        (sampleData "100" "prod" "net-b" "web" "" []) (sampleInventory, [])).1 = none ∧
    (resourcePhpIPAMAddressDelete (recording inventoryClient)
        (sampleData "100" "prod" "net-b" "web" "" []) (sampleInventory, [])).2.2 =
      [Event.DeleteAddress "100"] ∧
    Event.Lock ∉ (resourcePhpIPAMAddressDelete (recording inventoryClient)
        (sampleData "100" "prod" "net-b" "web" "" []) (sampleInventory, [])).2.2 := by
  refine ⟨rfl, rfl, by decide⟩

/-! ## Reconciler: `resourcePhpIPAMAddressrUpdate` -/

/-- The recreate branch of `Update`, taken when hostname has not changed: it runs `create` with
the force flag `true`; an error of `create` is returned as it is, with nothing deleted and the
resource data unchanged; otherwise it runs `delete` on the old ID, and an error of `delete` is
returned with the resource data unchanged; otherwise it is the `Read` of the resource with its
ID set to the new address ID. -/
theorem resourcePhpIPAMAddressrUpdate_recreate (addonLock : Mutex σ) (c : Client σ)
    (d : ResourceData) (s : σ) (hhost : d.HasChange "hostname" = false) :
    (∀ addressID err s1,
      create addonLock c (d.Get "section") (d.Get "subnet") (d.Get "hostname") true
        (d.Get "index") s = ((addressID, some err), s1) →
      resourcePhpIPAMAddressrUpdate addonLock c d s = (Run.returned (d, some err), s1)) ∧
    (∀ newAddressID s1 err s2,
      create addonLock c (d.Get "section") (d.Get "subnet") (d.Get "hostname") true
        (d.Get "index") s = ((newAddressID, none), s1) →
      delete c d.Id true s1 = (some err, s2) →
      resourcePhpIPAMAddressrUpdate addonLock c d s = (Run.returned (d, some err), s2)) ∧
    (∀ newAddressID s1 s2,
      create addonLock c (d.Get "section") (d.Get "subnet") (d.Get "hostname") true
        (d.Get "index") s = ((newAddressID, none), s1) →
      delete c d.Id true s1 = (none, s2) →
      resourcePhpIPAMAddressrUpdate addonLock c d s =
        resourcePhpIPAMAddressRead c (d.SetId newAddressID) s2) := by
  have hneq : ¬ (d.HasChange "hostname" = true) := by simp [hhost]
  refine ⟨?_, ?_, ?_⟩
  · intro addressID err s1 hcreate
    unfold resourcePhpIPAMAddressrUpdate
    simp only [if_neg hneq, hcreate]
  · intro newAddressID s1 err s2 hcreate hdelete
    unfold resourcePhpIPAMAddressrUpdate
    simp only [if_neg hneq, hcreate, hdelete]
  · intro newAddressID s1 s2 hcreate hdelete
    unfold resourcePhpIPAMAddressrUpdate
    simp only [if_neg hneq, hcreate, hdelete]

/-- C2, what the code does.  `Update` branches on `d.HasChange("hostname")` alone.  Whenever
hostname changed, whether or not section, subnet or index changed with it, for every client
and every resource data: the first call is `PatchUpdateAddress` with the desired hostname and
the resource ID, every later call is a read (the lock is never taken, nothing is allocated,
nothing is deleted), and the resource data returned keep the old ID.  So an update that
changes subnet, section or index together with hostname is not recreated. -/
theorem resourcePhpIPAMAddressrUpdate_hostname_changed (c : Client σ) (d : ResourceData)
    (st : σ × List Event) (hhost : d.HasChange "hostname" = true) :
    (∃ evs, (resourcePhpIPAMAddressrUpdate recordingLock (recording c) d st).2.2 =
        st.2 ++ Event.PatchUpdateAddress (d.Get "hostname") d.Id :: evs ∧
      ∀ e ∈ evs, e.isRead = true) ∧
    (∀ d1 e st1,
      resourcePhpIPAMAddressrUpdate recordingLock (recording c) d st =
        (Run.returned (d1, e), st1) → d1.Id = d.Id) := by
  have hpatch : ((recording c).PhpIPAMClient.PatchUpdateAddress (d.Get "hostname") d.Id st).2.2 =
      st.2 ++ [Event.PatchUpdateAddress (d.Get "hostname") d.Id] := rfl
  rcases hp : (recording c).PhpIPAMClient.PatchUpdateAddress (d.Get "hostname") d.Id st with
    ⟨⟨r, perr⟩, st1⟩
  rw [hp] at hpatch
  simp only at hpatch
  cases perr with
  | some err =>
    have hrun : resourcePhpIPAMAddressrUpdate recordingLock (recording c) d st =
        (Run.returned (d, some ("Address Update Failed: " ++ err)), st1) := by
      unfold resourcePhpIPAMAddressrUpdate
      simp only [hhost, if_true, hp]
    rw [hrun]
    refine ⟨⟨[], by simp [hpatch], by simp⟩, ?_⟩
    intro d1 e st2 heq
    cases heq
    rfl
  | none =>
    have hrun : resourcePhpIPAMAddressrUpdate recordingLock (recording c) d st =
        resourcePhpIPAMAddressRead (recording c) d st1 := by
      unfold resourcePhpIPAMAddressrUpdate
      simp only [hhost, if_true, hp]
    rw [hrun]
    obtain ⟨evs, hlog, hread⟩ := resourcePhpIPAMAddressRead_log c d st1
    refine ⟨⟨evs, by rw [hlog, hpatch]; simp, hread⟩, ?_⟩
    intro d1 e st2 heq
    exact resourcePhpIPAMAddressRead_id (recording c) d d1 st1 st2 e heq

/-- Witness: address `100` of host `web` lies in subnet `net-b`; the update changes hostname
to `web2` and subnet to `net-a`.  `Update` patches the hostname and reads; it returns no error,
the resource keeps the ID `100`, and the subnet read back is still `net-b`. -/
theorem resourcePhpIPAMAddressrUpdate_hostname_changed_witness :
    (sampleData "100" "prod" "net-a" "web2" "" ["hostname", "subnet"]).HasChange "subnet" =
      true ∧
    resourcePhpIPAMAddressrUpdate recordingLock (recording inventoryClient)
        (sampleData "100" "prod" "net-a" "web2" "" ["hostname", "subnet"])
        (sampleInventory, []) =
      (Run.returned
        (sampleReadBack (sampleData "100" "prod" "net-a" "web2" "" ["hostname", "subnet"])
          "100" "web2" "prod" "net-b" "10.0.1.2" "10.0.1.255" "10.0.1.1" "24" "", none),
       (sampleInventoryWeb2,
        [Event.PatchUpdateAddress "web2" "100", Event.GetAddress "100",
         Event.GetAddressSearch "web2", Event.GetSubnet "11", Event.GetSection "1"])) ∧
    (sampleReadBack (sampleData "100" "prod" "net-a" "web2" "" ["hostname", "subnet"])
      "100" "web2" "prod" "net-b" "10.0.1.2" "10.0.1.255" "10.0.1.1" "24" "").Id = "100" ∧
    (sampleReadBack (sampleData "100" "prod" "net-a" "web2" "" ["hostname", "subnet"])
      "100" "web2" "prod" "net-b" "10.0.1.2" "10.0.1.255" "10.0.1.1" "24" "").Get "subnet" =
      "net-b" :=
  ⟨by decide, rfl,
   (resourcePhpIPAMAddressrUpdate_hostname_changed inventoryClient
      (sampleData "100" "prod" "net-a" "web2" "" ["hostname", "subnet"]) (sampleInventory, [])
      (by decide)).2
      (sampleReadBack (sampleData "100" "prod" "net-a" "web2" "" ["hostname", "subnet"])
        "100" "web2" "prod" "net-b" "10.0.1.2" "10.0.1.255" "10.0.1.1" "24" "")
      none
      (sampleInventoryWeb2,
       [Event.PatchUpdateAddress "web2" "100", Event.GetAddress "100",
        Event.GetAddressSearch "web2", Event.GetSubnet "11", Event.GetSection "1"])
      rfl,
   rfl⟩

end PhpIPAM
